import Mathlib

/-!
Verification of the websockets RPC core of `tk-desktop2`.

Shallow embedding of
  python/tk_desktop2/websockets/requests/deferred_request.py
  python/tk_desktop2/websockets/requests/request_runner.py
  python/tk_desktop2/websockets/requests/request.py
  python/tk_desktop2/websockets/requests/toolkit_actions/get_actions.py
  python/tk_desktop2/websockets/requests/local_file_linking/pick_file.py
  python/tk_desktop2/websockets/websockets_connection.py
  python/tk_desktop2/websockets/encryption_handler.py

Python dictionaries keyed by project id are embedded as association lists,
Python `None` as `Option.none`, raised exceptions as `Except.error`.
-/

namespace TkDesktop2

/-- Constant `CONFIG_CHECK_TIMEOUT_SECONDS = 10` from `python/tk_desktop2/constants.py`. -/
def CONFIG_CHECK_TIMEOUT_SECONDS : Nat := 10

/-- Constant `WEBSOCKETS_PROTOCOL_VERSION = 2` from `python/tk_desktop2/websockets/constants.py`. -/
def WEBSOCKETS_PROTOCOL_VERSION : Nat := 2

/-- Mirror of the `ExternalConfiguration` objects (from tk-framework-shotgunutils)
as observed by the request runner: it reads `pipeline_configuration_id`,
`pipeline_configuration_name` (may be `None` for zero-config setups) and
`is_valid`, and compares configuration objects for equality. -/
structure ExternalConfiguration where
  pipelineConfigurationId : Nat
  pipelineConfigurationName : Option String
  isValid : Bool
deriving DecidableEq, Repr

/-- Mirror of an `ExternalCommand` object as observed by
`GetActionsWebsocketsRequest.execute_with_context`. -/
structure ExternalCommand where
  systemName : String
  displayName : String
  excludedPermissionGroupsHint : List String
  group : String
  isGroupDefault : Bool
deriving DecidableEq, Repr

/-- One element of `DeferredRequest._configurations`: the dictionary
`{"configuration": ..., "commands": ..., "error": ...}` where `commands` is a
list of `ExternalCommand` or `None` and `error` is a string or `None`. -/
structure ConfigEntry where
  configuration : ExternalConfiguration
  commands : Option (List ExternalCommand)
  error : Option String
deriving DecidableEq, Repr

/-- The pending test from `DeferredRequest.can_be_executed`:
`config["commands"] is None and config["error"] is None`. -/
def ConfigEntry.isPending (e : ConfigEntry) : Bool :=
  e.commands.isNone && e.error.isNone

/-- Python truthiness of `config["error"]` as used by
`GetActionsWebsocketsRequest.execute_with_context`: truthy iff the error is
neither `None` nor the empty string. -/
def ConfigEntry.errorTruthy (e : ConfigEntry) : Bool :=
  match e.error with
  | some s => decide (s ≠ "")
  | none => false

/-- The concrete request classes created by the `WebsocketsRequest.create`
factory in `requests/request.py`. `pickFileOrDirectory` carries the
`pick_multiple` flag of `PickFileOrFilesWebsocketsRequest`. -/
inductive RequestKind where
  | getActions
  | executeAction
  | sgcOpenTask
  | sgcOpenTaskBoard
  | sgcOpenVersion
  | pickFileOrDirectory (pickMultiple : Bool)
  | openFile
deriving DecidableEq, Repr

/-- A constructed `WebsocketsRequest`, reduced to the attributes the runner and
the deferred request read: `project_id`, `entity_type`, `entity_id` and
`linked_entity_type` (each `None` for generic requests) plus the request id
echoed in replies. -/
structure WSRequest where
  kind : RequestKind
  requestId : Nat
  projectId : Option Nat
  entityType : Option String
  entityId : Option Int
  linkedEntityType : Option String
deriving DecidableEq, Repr

/-- The `requires_toolkit` property: `True` is returned by the overrides in
`GetActionsWebsocketsRequest` and `ExecuteActionWebsocketsRequest`; every other
request class inherits `False` from the `WebsocketsRequest` base class. -/
def WSRequest.requiresToolkit (r : WSRequest) : Bool :=
  match r.kind with
  | .getActions => true
  | .executeAction => true
  | _ => false

/-- The `command.data` parameter dictionary of a wire command.  A field holding
`none` embeds an absent dictionary key (`KeyError` on subscript access). -/
structure CommandData where
  entityId : Option Int
  entityType : Option String
  projectId : Option Nat
  entityIds : Option (List Int)
  commandName : Option String
  title : Option String
  pc : Option String
  filepath : Option String
  taskId : Option Nat
  versionId : Option Nat
deriving DecidableEq, Repr

/-- A parameter dictionary with every key absent. -/
def CommandData.empty : CommandData :=
  ⟨none, none, none, none, none, none, none, none, none, none⟩

/-- The `command` object of a wire message: `{"name": ..., "data": {...}}`. -/
structure WireCommand where
  name : String
  data : CommandData
deriving DecidableEq, Repr

/-- The `WebsocketsRequest.create` factory of `requests/request.py` combined
with the parameter validation done by each concrete constructor:

* `get_actions` requires `entity_id`, `entity_type` and `project_id`
  (`GetActionsWebsocketsRequest.__init__`, which also maps `entity_id == -1`
  to `None`);
* `execute_action` requires `name`, `title`, `pc`, `entity_ids`,
  `entity_type` and `project_id`;
* `sgc_open_task` requires `task_id`; `sgc_open_task_board` requires a
  `project_id` key; `sgc_open_version` requires `version_id`;
* the two pick commands take no parameters; `open` requires `filepath`;
* any other name raises `RuntimeError("Unsupported command ...")`.

A raised `ValueError`/`RuntimeError` is embedded as `Except.error`. -/
def WebsocketsRequest.create (requestId : Nat) (command : WireCommand) :
    Except String WSRequest :=
  if command.name = "get_actions" then
    match command.data.entityId, command.data.entityType, command.data.projectId with
    | some eid, some etype, some pid =>
      Except.ok
        { kind := RequestKind.getActions
          requestId := requestId
          projectId := some pid
          entityType := some etype
          entityId := if eid = -1 then none else some eid
          linkedEntityType := none }
    | _, _, _ => Except.error "Missing parameter in payload."
  else if command.name = "execute_action" then
    match command.data.commandName, command.data.title, command.data.pc,
        command.data.entityIds, command.data.entityType, command.data.projectId with
    | some _, some _, some _, some eids, some etype, some pid =>
      Except.ok
        { kind := RequestKind.executeAction
          requestId := requestId
          projectId := some pid
          entityType := some etype
          entityId := eids.head?
          linkedEntityType := none }
    | _, _, _, _, _, _ => Except.error "Missing parameter in payload."
  else if command.name = "sgc_open_task" then
    match command.data.taskId with
    | some _ => Except.ok
        { kind := RequestKind.sgcOpenTask
          requestId := requestId
          projectId := none
          entityType := none
          entityId := none
          linkedEntityType := none }
    | none => Except.error "Missing required task_id key in parameter payload"
  else if command.name = "sgc_open_task_board" then
    match command.data.projectId with
    | some _ => Except.ok
        { kind := RequestKind.sgcOpenTaskBoard
          requestId := requestId
          projectId := none
          entityType := none
          entityId := none
          linkedEntityType := none }
    | none => Except.error "Missing required project_id key in parameter payload"
  else if command.name = "sgc_open_version" then
    match command.data.versionId with
    | some _ => Except.ok
        { kind := RequestKind.sgcOpenVersion
          requestId := requestId
          projectId := none
          entityType := none
          entityId := none
          linkedEntityType := none }
    | none => Except.error "Missing required version_id key in parameter payload"
  else if command.name = "pick_file_or_directory" then
    Except.ok
      { kind := RequestKind.pickFileOrDirectory false
        requestId := requestId
        projectId := none
        entityType := none
        entityId := none
        linkedEntityType := none }
  else if command.name = "pick_files_or_directories" then
    Except.ok
      { kind := RequestKind.pickFileOrDirectory true
        requestId := requestId
        projectId := none
        entityType := none
        entityId := none
        linkedEntityType := none }
  else if command.name = "open" then
    match command.data.filepath with
    | some _ => Except.ok
        { kind := RequestKind.openFile
          requestId := requestId
          projectId := none
          entityType := none
          entityId := none
          linkedEntityType := none }
    | none => Except.error "Missing filepath parameter"
  else
    Except.error ("Unsupported command " ++ command.name)

/-- The `DeferredRequest` broker: the wrapped request together with
`_configurations`, which is `None` until `register_configurations` runs. -/
structure DeferredRequest where
  request : WSRequest
  configurations : Option (List ConfigEntry)
deriving DecidableEq, Repr

/-- Embedding of `DeferredRequest.can_be_executed`.  Python truthiness of
`self._configurations` sends both `None` and the empty list to the `else`
branch, which returns `False`; otherwise every entry must have loaded either
commands or an error. -/
def DeferredRequest.canBeExecuted (d : DeferredRequest) : Bool :=
  match d.configurations with
  | some (e :: es) => (e :: es).all fun x => !x.isPending
  | _ => false

/-- Embedding of `DeferredRequest.register_configurations`: replaces `_configurations` with
one fresh pending entry per configuration. -/
def DeferredRequest.registerConfigurations (d : DeferredRequest)
    (configs : List ExternalConfiguration) : DeferredRequest :=
  let entries : List ConfigEntry :=
    configs.map fun c => { configuration := c, commands := none, error := none }
  { d with configurations := some entries }

/-- The `for ... if ...: <mutate>; break` pattern shared by
`register_commands`, `register_commands_failure` and
`register_configurations_failure`: rewrite the first entry satisfying `p`
with `f` and stop. -/
def updateFirst (p : ConfigEntry → Bool) (f : ConfigEntry → ConfigEntry) :
    List ConfigEntry → List ConfigEntry
  | [] => []
  | e :: es => if p e then f e :: es else e :: updateFirst p f es

/-- Embedding of `DeferredRequest.register_commands`: the first entry whose configuration
equals `config` gets `commands` set (a shallow `copy.copy` is identity under
value semantics) and `error` cleared.  Calling it before
`register_configurations` raises in Python (iteration over `None`); that state
is embedded as a no-op and is never exercised below. -/
def DeferredRequest.registerCommands (d : DeferredRequest)
    (config : ExternalConfiguration) (commands : List ExternalCommand) : DeferredRequest :=
  let upd := updateFirst (fun e => decide (e.configuration = config))
    (fun e => { e with commands := some commands, error := none })
  { d with configurations := d.configurations.map upd }

/-- Embedding of `DeferredRequest.register_commands_failure`: the first entry whose
configuration equals `config` gets `commands` cleared and `error` set. -/
def DeferredRequest.registerCommandsFailure (d : DeferredRequest)
    (config : ExternalConfiguration) (reason : String) : DeferredRequest :=
  let upd := updateFirst (fun e => decide (e.configuration = config))
    (fun e => { e with commands := none, error := some reason })
  { d with configurations := d.configurations.map upd }

/-- Embedding of `DeferredRequest.register_configurations_failure`: the first entry whose
configuration is a member of `invalid_configs` gets `commands` cleared and
`error` set to `reason`; the loop breaks after that entry. -/
def DeferredRequest.registerConfigurationsFailure (d : DeferredRequest)
    (reason : String) (invalidConfigs : List ExternalConfiguration) : DeferredRequest :=
  let upd := updateFirst (fun e => decide (e.configuration ∈ invalidConfigs))
    (fun e => { e with commands := none, error := some reason })
  { d with configurations := d.configurations.map upd }


/-- Effects emitted by the request runner towards its collaborators: the
wrapped request itself (`executeImmediate`, `executeWithContext`), the
external configuration loader (`requestConfigurations`,
`refreshShotgunGlobalState`) and the cached configuration objects
(`requestCommands`). -/
inductive RunnerEffect where
  | executeImmediate (request : WSRequest)
  | executeWithContext (request : WSRequest) (configurations : List ConfigEntry)
  | requestConfigurations (projectId : Option Nat)
  | refreshShotgunGlobalState
  | requestCommands (config : ExternalConfiguration) (projectId : Option Nat)
      (entityType : Option String) (entityId : Option Int)
      (linkedEntityType : Option String)
deriving DecidableEq, Repr

/-- Embedding of `DeferredRequest.execute`: raises `RuntimeError` unless
`can_be_executed()`, otherwise invokes the wrapped request with the built-up
configuration state. -/
def DeferredRequest.execute (d : DeferredRequest) : Except String RunnerEffect :=
  if d.canBeExecuted then
    Except.ok (RunnerEffect.executeWithContext d.request (d.configurations.getD []))
  else
    Except.error "not ready to be executed!"

/-- Mutable state of a `RequestRunner`: `_cached_configs` (a dictionary keyed
by project id, embedded as an association list), `_last_update_check` and
`_active_requests`. -/
structure RunnerState where
  cachedConfigs : List (Option Nat × List ExternalConfiguration)
  lastUpdateCheck : Nat
  activeRequests : List DeferredRequest
deriving DecidableEq, Repr

/-- Dictionary lookup `self._cached_configs[project_id]`
(`project_id in self._cached_configs` is `isSome` of this). -/
def lookupConfigs (cache : List (Option Nat × List ExternalConfiguration))
    (pid : Option Nat) : Option (List ExternalConfiguration) :=
  match cache with
  | [] => none
  | (k, v) :: rest => if k = pid then some v else lookupConfigs rest pid

/-- Dictionary assignment `self._cached_configs[project_id] = configs`. -/
def storeConfigs (cache : List (Option Nat × List ExternalConfiguration))
    (pid : Option Nat) (configs : List ExternalConfiguration) :
    List (Option Nat × List ExternalConfiguration) :=
  match cache with
  | [] => [(pid, configs)]
  | (k, v) :: rest =>
    if k = pid then (pid, configs) :: rest else (k, v) :: storeConfigs rest pid configs

/-- Embedding of `RequestRunner._execute_ready_requests`: executes every active request
whose state is complete and keeps the remaining ones, preserving order.  The
`deferred_request.execute()` call is guarded by `can_be_executed()`, so its
`RuntimeError` branch is unreachable and dropped here. -/
def RequestRunner.executeReadyRequests (st : RunnerState) :
    RunnerState × List RunnerEffect :=
  let step := fun (d : DeferredRequest) (acc : List DeferredRequest × List RunnerEffect) =>
    if d.canBeExecuted then
      match d.execute with
      | Except.ok e => (acc.1, e :: acc.2)
      | Except.error _ => (acc.1, acc.2)
    else (d :: acc.1, acc.2)
  let res := st.activeRequests.foldr step ([], [])
  ({ st with activeRequests := res.1 }, res.2)

/-- Embedding of `RequestRunner.execute` (given the current wall-clock time `now` in
seconds, for the `time.time()` staleness check).  The analytics
`log_metric` call has no effect on runner state and is elided.  Non-toolkit
requests are executed straight away; toolkit requests are wrapped in a
`DeferredRequest` and appended to `_active_requests`, then either the cached
configurations are registered and their commands requested (cache hit, with a
non-blocking `refresh_shotgun_global_state` probe if the last check is older
than `CONFIG_CHECK_TIMEOUT_SECONDS`) or a configuration load is requested
(cache miss). -/
def RequestRunner.execute (now : Nat) (st : RunnerState) (request : WSRequest) :
    RunnerState × List RunnerEffect :=
  if !request.requiresToolkit then
    (st, [RunnerEffect.executeImmediate request])
  else
    let d : DeferredRequest := { request := request, configurations := none }
    match lookupConfigs st.cachedConfigs request.projectId with
    | some configs =>
      let stale := decide (now - st.lastUpdateCheck > CONFIG_CHECK_TIMEOUT_SECONDS)
      let staleEffects := if stale then [RunnerEffect.refreshShotgunGlobalState] else []
      let newLastCheck := if stale then now else st.lastUpdateCheck
      let commandEffects := configs.map fun c =>
        RunnerEffect.requestCommands c request.projectId request.entityType
          request.entityId request.linkedEntityType
      ({ st with
          lastUpdateCheck := newLastCheck
          activeRequests := st.activeRequests ++ [d.registerConfigurations configs] },
       staleEffects ++ commandEffects)
    | none =>
      ({ st with activeRequests := st.activeRequests ++ [d] },
       [RunnerEffect.requestConfigurations request.projectId])

/-- Embedding of `RequestRunner._on_configurations_changed`: requests a configuration
reload for every active request's project.  It does not touch
`_cached_configs` or `_active_requests`. -/
def RequestRunner.onConfigurationsChanged (st : RunnerState) :
    RunnerState × List RunnerEffect :=
  (st, st.activeRequests.map fun d => RunnerEffect.requestConfigurations d.request.projectId)

/-- Embedding of `RequestRunner._on_configurations_loaded`.  If any configuration is
invalid, every active request for the project gets the invalid configurations
registered and a single `register_configurations_failure` call, then ready
requests are executed.  Otherwise the configurations are cached under the
project id and registered on every active request for the project, and each
such request asks every configuration for its commands (the signal wiring and
interpreter-path updates have no effect on runner state and are elided). -/
def RequestRunner.onConfigurationsLoaded (st : RunnerState) (projectId : Option Nat)
    (configs : List ExternalConfiguration) : RunnerState × List RunnerEffect :=
  let invalidConfigs := configs.filter fun c => !c.isValid
  if invalidConfigs.isEmpty then
    let registered := st.activeRequests.map fun d =>
      if d.request.projectId = projectId then d.registerConfigurations configs else d
    let commandEffects :=
      (st.activeRequests.filter fun d => decide (d.request.projectId = projectId)).map
        (fun d => configs.map fun c =>
          RunnerEffect.requestCommands c projectId d.request.entityType
            d.request.entityId d.request.linkedEntityType)
    ({ st with
        cachedConfigs := storeConfigs st.cachedConfigs projectId configs
        activeRequests := registered },
     commandEffects.flatten)
  else
    let reason := "Cannot resolve configurations with the following ids: " ++
      toString (invalidConfigs.map fun c => c.pipelineConfigurationId)
    let registered := st.activeRequests.map fun d =>
      if d.request.projectId = projectId then
        (d.registerConfigurations invalidConfigs).registerConfigurationsFailure
          reason invalidConfigs
      else d
    RequestRunner.executeReadyRequests { st with activeRequests := registered }

/-- Embedding of `RequestRunner._on_commands_loaded`: registers the commands on every
active request matching the project and entity type, then executes ready
requests.  The interpreter-path rewrite on each command mutates only the
command objects and is elided. -/
def RequestRunner.onCommandsLoaded (st : RunnerState) (projectId : Option Nat)
    (entityType : Option String) (config : ExternalConfiguration)
    (commands : List ExternalCommand) : RunnerState × List RunnerEffect :=
  let registered := st.activeRequests.map fun d =>
    if d.request.projectId = projectId ∧ d.request.entityType = entityType then
      d.registerCommands config commands
    else d
  RequestRunner.executeReadyRequests { st with activeRequests := registered }

/-- Embedding of `RequestRunner._on_commands_load_failed`: registers the failure on every
active request matching the project and entity type, then executes ready
requests. -/
def RequestRunner.onCommandsLoadFailed (st : RunnerState) (projectId : Option Nat)
    (entityType : Option String) (config : ExternalConfiguration)
    (reason : String) : RunnerState × List RunnerEffect :=
  let registered := st.activeRequests.map fun d =>
    if d.request.projectId = projectId ∧ d.request.entityType = entityType then
      d.registerCommandsFailure config reason
    else d
  RequestRunner.executeReadyRequests { st with activeRequests := registered }

/-- An asynchronous per-configuration completion signal: either
`commands_loaded` or `commands_load_failed` for one configuration. -/
inductive CommandEvent where
  | loaded (config : ExternalConfiguration) (commands : List ExternalCommand)
  | loadFailed (config : ExternalConfiguration) (reason : String)
deriving DecidableEq, Repr

/-- The configuration a completion signal belongs to. -/
def CommandEvent.config : CommandEvent → ExternalConfiguration
  | .loaded c _ => c
  | .loadFailed c _ => c

/-- Effect of one completion signal on a single `DeferredRequest`
(`register_commands` or `register_commands_failure`). -/
def DeferredRequest.applyEvent (d : DeferredRequest) : CommandEvent → DeferredRequest
  | .loaded c cmds => d.registerCommands c cmds
  | .loadFailed c r => d.registerCommandsFailure c r

/-- Dispatch of one completion signal to the runner (`_on_commands_loaded` or
`_on_commands_load_failed`), for signals carrying the given project id and
entity type. -/
def RequestRunner.onCommandEvent (st : RunnerState) (projectId : Option Nat)
    (entityType : Option String) : CommandEvent → RunnerState × List RunnerEffect
  | .loaded c cmds => RequestRunner.onCommandsLoaded st projectId entityType c cmds
  | .loadFailed c r => RequestRunner.onCommandsLoadFailed st projectId entityType c r

/-- Delivery of a sequence of completion signals to the runner, collecting all
emitted effects in order. -/
def RequestRunner.runEvents (projectId : Option Nat) (entityType : Option String) :
    RunnerState → List CommandEvent → RunnerState × List RunnerEffect
  | st, [] => (st, [])
  | st, ev :: evs =>
    let r1 := RequestRunner.onCommandEvent st projectId entityType ev
    let r2 := RequestRunner.runEvents projectId entityType r1.1 evs
    (r2.1, r1.2 ++ r2.2)

/-- Modelled from the spec: `cryptography.fernet.Fernet`, the symmetric
authenticated encryption used by `EncryptionHandler`, is an external library
and not part of this repository.  Per spec section 4.2 it is ideal
authenticated encryption: a token decrypts only under the key that produced
it.  A token is embedded as the key it was produced under together with the
plaintext it protects. -/
structure FernetToken where
  keyId : Nat
  payload : List Nat
deriving DecidableEq, Repr

/-- Modelled from the spec: the `DecryptionError` (`InvalidToken`) signalled
by the external Fernet library on tampered or foreign-key input. -/
inductive DecryptionError where
  | invalidToken
deriving DecidableEq, Repr

/-- Modelled from the spec: `Fernet(key).encrypt(payload)`. -/
def fernetEncrypt (key : Nat) (payload : List Nat) : FernetToken :=
  { keyId := key, payload := payload }

/-- Modelled from the spec: `Fernet(key).decrypt(token)` — returns the
plaintext for a token produced under the same key and raises otherwise,
never returning garbage. -/
def fernetDecrypt (key : Nat) (token : FernetToken) :
    Except DecryptionError (List Nat) :=
  if token.keyId = key then Except.ok token.payload
  else Except.error DecryptionError.invalidToken

/-- An `EncryptionHandler` session: the unique server id and the session key
obtained from the site (`_retrieve_server_secret`), held by the `Fernet`
instance. -/
structure EncryptionHandler where
  uniqueServerId : List Nat
  serverSecret : Nat
deriving DecidableEq, Repr

/-- Embedding of `EncryptionHandler.encrypt`: delegates to the Fernet session. -/
def EncryptionHandler.encrypt (h : EncryptionHandler) (payload : List Nat) :
    FernetToken :=
  fernetEncrypt h.serverSecret payload

/-- Embedding of `EncryptionHandler.decrypt`: delegates to the Fernet session (the
`bytes(payload)` conversion is identity under value semantics). -/
def EncryptionHandler.decrypt (h : EncryptionHandler) (payload : FernetToken) :
    Except DecryptionError (List Nat) :=
  fernetDecrypt h.serverSecret payload

/-- The three connection states of `WebsocketsConnection`. -/
inductive ConnectionState where
  | awaitingHandshake
  | awaitingServerIdRequest
  | awaitingEncryptedRequest
deriving DecidableEq, Repr

/-- A parsed json message as interrogated by the connection handlers:
`requestId` is the `"id"` key, `protocolVersion` the `"protocol_version"`
key, `command` the `"command"` object, and `userEntityId` the result of the
nested lookup `command.data.user.entity.id` (`none` embeds the `KeyError`
path).  A `none` field embeds an absent key. -/
structure MessageObj where
  requestId : Option Nat
  protocolVersion : Option Nat
  command : Option WireCommand
  userEntityId : Option Nat
deriving DecidableEq, Repr

/-- A raw inbound wire message, given by its observations under the
operations the connection may apply to it: the raw text (compared against
the literal handshake probe), the result of `util.parse_json` on it, the
result of `EncryptionHandler.decrypt` on it followed by `util.parse_json` of
the decrypted bytes, and — abstracting the collaborators of the dispatch
step — an optional exception raised inside `RequestRunner.execute` while the
request constructed from this message is being scheduled or synchronously
executed. -/
structure InboundMessage where
  rawText : String
  jsonParse : Except String MessageObj
  decryptResult : Except String String
  decryptedParse : Except String MessageObj
  dispatchException : Option String
deriving Repr

/-- Payloads transmitted back to the client by the connection handlers. -/
inductive ReplyData where
  | protocolVersionReply (version : Nat)
  | serverIdReply (serverId : List Nat) (requestId : Nat)
  | connectionRefusedReply (errorCode : String) (requestId : Nat)
  | commandErrorReply (retcode : Int) (out : String) (err : String) (requestId : Nat)
deriving DecidableEq, Repr

/-- Outcome of `WebsocketsConnection.process_message` for one inbound
message: an exception propagated to the caller, a reply sent with the
connection kept open, an (optional) error reply followed by
`closeConnection`, or a request handed to the `RequestRunner`. -/
inductive ConnectionOutcome where
  | raised (message : String)
  | replied (reply : ReplyData)
  | repliedAndClosed (reply : Option ReplyData)
  | dispatched (request : WSRequest)
deriving DecidableEq, Repr

/-- Site and user validation context of `_handle_server_id_request`:
whether the origin matches the localhost regex, whether it equals the
logged-in site url, the currently logged-in user id and whether the Shotgun
version supports structured error states (the legacy alternative pops a
one-time warning dialog instead of sending an error reply; both paths close
the connection). -/
structure ConnectionEnv where
  originIsLocalhost : Bool
  originIsShotgunSite : Bool
  currentUserId : Nat
  supportsErrorStates : Bool
deriving DecidableEq, Repr

/-- Embedding of `WebsocketsConnection._handle_protocol_handshake_request`: the literal
probe advances the state and replies with the protocol version; anything
else raises `RuntimeError`. -/
def handleProtocolHandshakeRequest (msg : InboundMessage) :
    ConnectionState × ConnectionOutcome :=
  if msg.rawText = "get_protocol_version" then
    (ConnectionState.awaitingServerIdRequest,
     ConnectionOutcome.replied (ReplyData.protocolVersionReply WEBSOCKETS_PROTOCOL_VERSION))
  else
    (ConnectionState.awaitingHandshake, ConnectionOutcome.raised "Invalid request!")

/-- Embedding of `WebsocketsConnection._handle_server_id_request`: parse the json (a parse
error propagates), require an `"id"` key, extract the nested user id
(`KeyError` becomes a raised `RuntimeError`), validate site then user
(mismatch sends a structured refusal — or, pre-error-state Shotgun, pops a
one-time dialog — and closes the connection), then require the command name
`get_ws_server_id` to reply with the server id and advance; any other name
raises `RuntimeError`. -/
def handleServerIdRequest (env : ConnectionEnv) (serverId : List Nat)
    (msg : InboundMessage) : ConnectionState × ConnectionOutcome :=
  match msg.jsonParse with
  | Except.error e => (ConnectionState.awaitingServerIdRequest, ConnectionOutcome.raised e)
  | Except.ok obj =>
    match obj.requestId with
    | none =>
      (ConnectionState.awaitingServerIdRequest,
       ConnectionOutcome.raised "Invalid websockets request - missing id.")
    | some rid =>
      match obj.userEntityId with
      | none =>
        (ConnectionState.awaitingServerIdRequest,
         ConnectionOutcome.raised
           "Unexpected error while trying to retrieve the user id: No user information was found in this request.")
      | some uid =>
        if !env.originIsLocalhost && !env.originIsShotgunSite then
          (ConnectionState.awaitingServerIdRequest,
           ConnectionOutcome.repliedAndClosed
             (if env.supportsErrorStates then
                some (ReplyData.connectionRefusedReply "CONNECTION_REFUSED_SITE_MISMATCH" rid)
              else none))
        else if uid ≠ env.currentUserId then
          (ConnectionState.awaitingServerIdRequest,
           ConnectionOutcome.repliedAndClosed
             (if env.supportsErrorStates then
                some (ReplyData.connectionRefusedReply "CONNECTION_REFUSED_USER_MISMATCH" rid)
              else none))
        else if obj.command.map WireCommand.name = some "get_ws_server_id" then
          (ConnectionState.awaitingEncryptedRequest,
           ConnectionOutcome.replied (ReplyData.serverIdReply serverId rid))
        else
          (ConnectionState.awaitingServerIdRequest, ConnectionOutcome.raised "Invalid request!")

/-- Embedding of `WebsocketsConnection._handle_encrypted_request`.  A decryption failure
raises `RuntimeError` ("Could not decrypt payload"); a parse failure of the
decrypted bytes propagates; a missing or wrong `protocol_version` raises
`RuntimeError`.  Inside the `try` block, a missing `"id"` key raises
`KeyError` which the `except` clause re-raises while building the reply, so
it propagates; with an id present, a missing `"command"` key, a factory or
constructor error, and any exception from `RequestRunner.execute` are all
caught and turned into a `{"retcode": -1, "out": "", "err": ...}` reply. -/
def handleEncryptedRequest (msg : InboundMessage) :
    ConnectionState × ConnectionOutcome :=
  match msg.decryptResult with
  | Except.error e =>
    (ConnectionState.awaitingEncryptedRequest,
     ConnectionOutcome.raised ("Could not decrypt payload: " ++ e))
  | Except.ok _ =>
    match msg.decryptedParse with
    | Except.error e => (ConnectionState.awaitingEncryptedRequest, ConnectionOutcome.raised e)
    | Except.ok obj =>
      if obj.protocolVersion ≠ some WEBSOCKETS_PROTOCOL_VERSION then
        (ConnectionState.awaitingEncryptedRequest,
         ConnectionOutcome.raised "Unexpected protocol version!")
      else
        match obj.requestId with
        | none =>
          (ConnectionState.awaitingEncryptedRequest,
           ConnectionOutcome.raised "KeyError: id")
        | some rid =>
          match obj.command with
          | none =>
            (ConnectionState.awaitingEncryptedRequest,
             ConnectionOutcome.replied
               (ReplyData.commandErrorReply (-1) "" "KeyError: command" rid))
          | some cmd =>
            match WebsocketsRequest.create rid cmd with
            | Except.error e =>
              (ConnectionState.awaitingEncryptedRequest,
               ConnectionOutcome.replied (ReplyData.commandErrorReply (-1) "" e rid))
            | Except.ok req =>
              match msg.dispatchException with
              | some e =>
                (ConnectionState.awaitingEncryptedRequest,
                 ConnectionOutcome.replied (ReplyData.commandErrorReply (-1) "" e rid))
              | none =>
                (ConnectionState.awaitingEncryptedRequest,
                 ConnectionOutcome.dispatched req)

/-- Embedding of `WebsocketsConnection.process_message`: dispatch on the connection
state. -/
def processMessage (env : ConnectionEnv) (serverId : List Nat)
    (state : ConnectionState) (msg : InboundMessage) :
    ConnectionState × ConnectionOutcome :=
  match state with
  | ConnectionState.awaitingHandshake => handleProtocolHandshakeRequest msg
  | ConnectionState.awaitingServerIdRequest => handleServerIdRequest env serverId msg
  | ConnectionState.awaitingEncryptedRequest => handleEncryptedRequest msg

/-- A fatal outcome for a message: either an exception propagated out of
`process_message` (the server's signal wrapper only logs it) or the
connection was closed. -/
def ConnectionOutcome.isFatal : ConnectionOutcome → Bool
  | .raised _ => true
  | .repliedAndClosed _ => true
  | _ => false

/-- RPC return code `GetActionsWebsocketsRequest.SUCCESSFUL_LOOKUP`. -/
def SUCCESSFUL_LOOKUP : Int := 0

/-- RPC return code `GetActionsWebsocketsRequest.CACHING_ERROR`. -/
def CACHING_ERROR : Int := 3

/-- One `<ACTION>` dictionary assembled by
`GetActionsWebsocketsRequest.execute_with_context`. -/
structure ActionEntry where
  name : String
  title : String
  denyPermissions : List String
  appName : String
  group : String
  groupDefault : Bool
  engineName : String
deriving DecidableEq, Repr

/-- The reply payload of `GetActionsWebsocketsRequest.execute_with_context`:
either the aggregation-error reply `{"retcode": CACHING_ERROR, "err": ...}`
or the success reply `{"retcode": 0, "pcs": [...], "actions": {...}}` (the
`actions` dictionary embedded as an association list in insertion order). -/
inductive GetActionsReply where
  | cachingError (retcode : Int) (err : String)
  | success (retcode : Int) (pcs : List String)
      (actions : List (String × List ActionEntry))
deriving DecidableEq, Repr

/-- Python dictionary assignment `response["actions"][config_name] = v`:
replace in place if the key exists, else append. -/
def upsertActions (key : String) (v : List ActionEntry) :
    List (String × List ActionEntry) → List (String × List ActionEntry)
  | [] => [(key, v)]
  | (k, w) :: rest =>
    if k = key then (key, v) :: rest else (k, w) :: upsertActions key v rest

/-- The success-branch loop of
`GetActionsWebsocketsRequest.execute_with_context`: for each entry, the
configuration name (defaulting to "Primary" for zero-config setups) is
appended to `pcs` and the entry's commands are converted into `<ACTION>`
dictionaries.  Iterating `config["commands"]` when it is `None` raises
`TypeError` in Python, embedded as `Except.error`. -/
def getActionsAssemble :
    List ConfigEntry → Except String (List String × List (String × List ActionEntry))
  | [] => Except.ok ([], [])
  | e :: es =>
    let configName := e.configuration.pipelineConfigurationName.getD "Primary"
    match e.commands with
    | none => Except.error "TypeError: NoneType object is not iterable"
    | some cmds =>
      let actions := cmds.map fun c =>
        { name := c.systemName
          title := c.displayName
          denyPermissions := c.excludedPermissionGroupsHint
          appName := "UNSPECIFIED"
          group := c.group
          groupDefault := c.isGroupDefault
          engineName := "UNSPECIFIED" : ActionEntry }
      match getActionsAssemble es with
      | Except.error err => Except.error err
      | Except.ok (pcs, acts) =>
        Except.ok (configName :: pcs, upsertActions configName actions acts)

/-- Embedding of `GetActionsWebsocketsRequest.execute_with_context`: if any entry carries
a truthy error, reply with `CACHING_ERROR` and the error strings joined by
newlines and return without assembling any action; otherwise assemble the
`pcs`/`actions` response with `retcode` 0. -/
def getActionsExecuteWithContext (associatedCommands : List ConfigEntry) :
    Except String GetActionsReply :=
  let errors := (associatedCommands.filter fun e => e.errorTruthy).map fun e => e.error.getD ""
  if errors.length > 0 then
    Except.ok (GetActionsReply.cachingError CACHING_ERROR (String.intercalate "\n" errors))
  else
    match getActionsAssemble associatedCommands with
    | Except.error err => Except.error err
    | Except.ok (pcs, acts) =>
      Except.ok (GetActionsReply.success SUCCESSFUL_LOOKUP pcs acts)

/-- Outcome of the modal `SgtkFileDialog` in
`PickFileOrFilesWebsocketsRequest.execute`: whether `exec_()` returned a
truthy result and the selected files. -/
structure FileDialogResult where
  accepted : Bool
  selectedFiles : List String
deriving DecidableEq, Repr

/-- Embedding of `PickFileOrFilesWebsocketsRequest.execute`, parametrised by the platform
path separator `os.path.sep` and the `os.path.isdir` predicate: on a truthy
dialog result each selected path gets a trailing separator if it is a
directory and its forward slashes replaced by the separator; on a cancelled
dialog the file list stays empty.  The returned list is the payload of the
single `self._reply(files)` call. -/
def pickFileExecute (sep : String) (isDir : String → Bool)
    (dialog : FileDialogResult) : List String :=
  if dialog.accepted then
    dialog.selectedFiles.map fun f =>
      let f1 := if isDir f then f ++ sep else f
      f1.replace "/" sep
  else []

/-! Sample values used by the concrete witnesses and counterexamples. -/

/-- A valid sample configuration named "Primary". -/
def cfgA : ExternalConfiguration := ⟨1, some "Primary", true⟩

/-- A valid sample configuration named "Dev". -/
def cfgB : ExternalConfiguration := ⟨2, some "Dev", true⟩

/-- An invalid sample configuration. -/
def cfgBadA : ExternalConfiguration := ⟨3, some "BrokenA", false⟩

/-- A second invalid sample configuration. -/
def cfgBadB : ExternalConfiguration := ⟨4, some "BrokenB", false⟩

/-- A sample external command. -/
def cmdA : ExternalCommand := ⟨"launch_maya", "Launch Maya", [], "Launch", true⟩

/-- A sample context-requiring request (get_actions for project 100, Shot 55). -/
def reqGA : WSRequest := ⟨RequestKind.getActions, 7, some 100, some "Shot", some 55, none⟩

/-- A sample immediate request (single-select file pick). -/
def reqPick : WSRequest := ⟨RequestKind.pickFileOrDirectory false, 9, none, none, none, none⟩

/-! Helper lemmas about `updateFirst`. -/

/-- Rewriting the first match twice in a row collapses to a single rewrite of
the composite, provided the rewrite does not change which entries match. -/
theorem updateFirst_updateFirst (p : ConfigEntry → Bool) (f g : ConfigEntry → ConfigEntry)
    (hp : ∀ e, p (f e) = p e) :
    ∀ l, updateFirst p g (updateFirst p f l) = updateFirst p (fun e => g (f e)) l := by
  intro l
  induction l with
  | nil => rfl
  | cons e es ih =>
    by_cases he : p e = true
    · simp [updateFirst, he, hp e]
    · simp only [Bool.not_eq_true] at he
      simp [updateFirst, he, ih]

/-- Pointwise equal rewrites give equal results. -/
theorem updateFirst_congr (p : ConfigEntry → Bool) (f g : ConfigEntry → ConfigEntry)
    (h : ∀ e, f e = g e) : ∀ l, updateFirst p f l = updateFirst p g l := by
  intro l
  induction l with
  | nil => rfl
  | cons e es ih =>
    by_cases he : p e = true
    · simp [updateFirst, he, h e]
    · simp only [Bool.not_eq_true] at he
      simp [updateFirst, he, ih]

/-- A list with no matching entry is left unchanged. -/
theorem updateFirst_no_match (p : ConfigEntry → Bool) (f : ConfigEntry → ConfigEntry) :
    ∀ l, (∀ e ∈ l, p e = false) → updateFirst p f l = l := by
  intro l
  induction l with
  | nil => intro _; rfl
  | cons e es ih =>
    intro h
    simp [updateFirst, h e (List.mem_cons_self e es), ih fun x hx => h x (List.mem_cons_of_mem e hx)]

/-- The helper `updateFirst` rewrites at most one entry: either nothing matches and the
list is unchanged, or the list splits around the first match, everything
before it does not match, and exactly that entry is rewritten. -/
theorem updateFirst_spec (p : ConfigEntry → Bool) (f : ConfigEntry → ConfigEntry) :
    ∀ l, ((∀ e ∈ l, p e = false) ∧ updateFirst p f l = l)
      ∨ (∃ l1 e l2, l = l1 ++ e :: l2 ∧ (∀ x ∈ l1, p x = false) ∧ p e = true ∧
          updateFirst p f l = l1 ++ f e :: l2) := by
  intro l
  induction l with
  | nil => exact Or.inl ⟨by simp, rfl⟩
  | cons e es ih =>
    by_cases he : p e = true
    · refine Or.inr ⟨[], e, es, by simp, by simp, he, ?_⟩
      simp [updateFirst, he]
    · simp only [Bool.not_eq_true] at he
      rcases ih with ⟨hnone, heq⟩ | ⟨l1, x, l2, hsplit, hpre, hx, heq⟩
      · refine Or.inl ⟨?_, by simp [updateFirst, he, heq]⟩
        intro a ha
        rcases List.mem_cons.1 ha with h | h
        · exact h ▸ he
        · exact hnone a h
      · refine Or.inr ⟨e :: l1, x, l2, by simp [hsplit], ?_, hx, ?_⟩
        · intro a ha
          rcases List.mem_cons.1 ha with h | h
          · exact h ▸ he
          · exact hpre a h
        · simp [updateFirst, he, heq]

/-! Claim C4: encryption round-trip and foreign-key rejection. -/

/-- C4 (spec-modelled): within one encryption session, `decrypt ∘ encrypt` is
the identity on payloads, and decrypting a payload encrypted under a
different session's key always fails with a `DecryptionError`, never
returning garbage. -/
theorem encrypt_decrypt_roundtrip (h g : EncryptionHandler) (p : List Nat)
    (hkey : h.serverSecret ≠ g.serverSecret) :
    h.decrypt (h.encrypt p) = Except.ok p ∧
    g.decrypt (h.encrypt p) = Except.error DecryptionError.invalidToken := by
  constructor
  · simp [EncryptionHandler.decrypt, EncryptionHandler.encrypt, fernetDecrypt, fernetEncrypt]
  · simp only [EncryptionHandler.decrypt, EncryptionHandler.encrypt, fernetDecrypt,
      fernetEncrypt]
    rw [if_neg hkey]

/-- Witness for C4 at two concrete sessions with different keys. -/
theorem encrypt_decrypt_roundtrip_witness :
    (EncryptionHandler.mk [0] 1).serverSecret ≠ (EncryptionHandler.mk [1] 2).serverSecret ∧
    ((EncryptionHandler.mk [0] 1).decrypt ((EncryptionHandler.mk [0] 1).encrypt [3, 4]) =
        Except.ok [3, 4] ∧
      (EncryptionHandler.mk [1] 2).decrypt ((EncryptionHandler.mk [0] 1).encrypt [3, 4]) =
        Except.error DecryptionError.invalidToken) :=
  ⟨by decide, encrypt_decrypt_roundtrip (EncryptionHandler.mk [0] 1)
    (EncryptionHandler.mk [1] 2) [3, 4] (by decide)⟩

/-! Claim C5: resolving the same source twice. -/

/-- C5 counterexample: a second, different resolution for an already-resolved
source is not ignored — `register_commands_failure` after `register_commands`
overwrites the recorded commands with an error. -/
theorem second_resolution_not_ignored :
    ((DeferredRequest.registerConfigurations ⟨reqGA, none⟩ [cfgA]).registerCommands
        cfgA [cmdA]).configurations = some [⟨cfgA, some [cmdA], none⟩] ∧
    (((DeferredRequest.registerConfigurations ⟨reqGA, none⟩ [cfgA]).registerCommands
        cfgA [cmdA]).registerCommandsFailure cfgA "config invalid").configurations =
      some [⟨cfgA, none, some "config invalid"⟩] ∧
    ((DeferredRequest.registerConfigurations ⟨reqGA, none⟩ [cfgA]).registerCommands
        cfgA [cmdA]).registerCommandsFailure cfgA "config invalid" ≠
      (DeferredRequest.registerConfigurations ⟨reqGA, none⟩ [cfgA]).registerCommands
        cfgA [cmdA] := by
  refine ⟨by decide, by decide, by decide⟩

/-- C5 (amended): per-source resolution is last-write-wins rather than
first-write-wins: repeating the same resolution is a no-op, and a second,
different resolution for the same source overwrites the first as if it had
been the only one. -/
theorem resolution_last_write_wins (d : DeferredRequest) (c : ExternalConfiguration)
    (cmds : List ExternalCommand) (r : String) :
    (d.registerCommands c cmds).registerCommands c cmds = d.registerCommands c cmds ∧
    (d.registerCommandsFailure c r).registerCommandsFailure c r =
      d.registerCommandsFailure c r ∧
    (d.registerCommands c cmds).registerCommandsFailure c r =
      d.registerCommandsFailure c r ∧
    (d.registerCommandsFailure c r).registerCommands c cmds =
      d.registerCommands c cmds := by
  have hcomp : ∀ (f g : ConfigEntry → ConfigEntry),
      (∀ e, (f e).configuration = e.configuration) →
      (∀ e, g (f e) = g e) →
      ∀ (m : Option (List ConfigEntry)),
        (m.map (updateFirst (fun e => decide (e.configuration = c)) f)).map
          (updateFirst (fun e => decide (e.configuration = c)) g) =
        m.map (updateFirst (fun e => decide (e.configuration = c)) g) := by
    intro f g hcfg hgf m
    cases m with
    | none => rfl
    | some l =>
      show some (updateFirst (fun e => decide (e.configuration = c)) g
          (updateFirst (fun e => decide (e.configuration = c)) f l)) =
        some (updateFirst (fun e => decide (e.configuration = c)) g l)
      rw [updateFirst_updateFirst _ f g (fun e => by simp [hcfg e]),
        updateFirst_congr _ _ _ hgf l]
  have h1 := hcomp (fun e => { e with commands := some cmds, error := none })
    (fun e => { e with commands := some cmds, error := none })
    (fun e => rfl) (fun e => rfl) d.configurations
  have h2 := hcomp (fun e => { e with commands := none, error := some r })
    (fun e => { e with commands := none, error := some r })
    (fun e => rfl) (fun e => rfl) d.configurations
  have h3 := hcomp (fun e => { e with commands := some cmds, error := none })
    (fun e => { e with commands := none, error := some r })
    (fun e => rfl) (fun e => rfl) d.configurations
  have h4 := hcomp (fun e => { e with commands := none, error := some r })
    (fun e => { e with commands := some cmds, error := none })
    (fun e => rfl) (fun e => rfl) d.configurations
  exact ⟨congrArg (fun m => { d with configurations := m }) h1,
    congrArg (fun m => { d with configurations := m }) h2,
    congrArg (fun m => { d with configurations := m }) h3,
    congrArg (fun m => { d with configurations := m }) h4⟩

/-! Claim C8: aggregation errors preempt action assembly. -/

/-- C8: if any configuration entry carries a (truthy) error, the get_actions
reply is the caching-error reply carrying `CACHING_ERROR` and the newline-join
of all failing entries' error texts, and no success reply (no assembled
action list) is produced. -/
theorem getActions_aggregation_error (ctx : List ConfigEntry)
    (h : ∃ e ∈ ctx, e.errorTruthy = true) :
    getActionsExecuteWithContext ctx =
      Except.ok (GetActionsReply.cachingError CACHING_ERROR
        (String.intercalate "\n"
          ((ctx.filter fun e => e.errorTruthy).map fun e => e.error.getD ""))) ∧
    ∀ rc pcs acts,
      getActionsExecuteWithContext ctx ≠
        Except.ok (GetActionsReply.success rc pcs acts) := by
  obtain ⟨e, he, htruthy⟩ := h
  have hmem : e ∈ ctx.filter fun x => x.errorTruthy := List.mem_filter.2 ⟨he, htruthy⟩
  have hlen : ((ctx.filter fun x => x.errorTruthy).map fun x => x.error.getD "").length > 0 := by
    simp only [List.length_map]
    exact List.length_pos.2 (List.ne_nil_of_mem hmem)
  constructor
  · simp only [getActionsExecuteWithContext]
    rw [if_pos hlen]
  · intro rc pcs acts
    simp only [getActionsExecuteWithContext]
    rw [if_pos hlen]
    simp

/-- Witness for C8: spec scenario A — one source with three commands, one
source failing with "config invalid"; the reply is the caching error carrying
the combined error text. -/
theorem getActions_aggregation_error_witness :
    (∃ e ∈ [ConfigEntry.mk cfgA (some [cmdA, cmdA, cmdA]) none,
            ConfigEntry.mk cfgB none (some "config invalid")], e.errorTruthy = true) ∧
    (getActionsExecuteWithContext
        [ConfigEntry.mk cfgA (some [cmdA, cmdA, cmdA]) none,
         ConfigEntry.mk cfgB none (some "config invalid")] =
      Except.ok (GetActionsReply.cachingError CACHING_ERROR
        (String.intercalate "\n"
          (([ConfigEntry.mk cfgA (some [cmdA, cmdA, cmdA]) none,
             ConfigEntry.mk cfgB none (some "config invalid")].filter
              fun e => e.errorTruthy).map fun e => e.error.getD ""))) ∧
      ∀ rc pcs acts,
        getActionsExecuteWithContext
            [ConfigEntry.mk cfgA (some [cmdA, cmdA, cmdA]) none,
             ConfigEntry.mk cfgB none (some "config invalid")] ≠
          Except.ok (GetActionsReply.success rc pcs acts)) :=
  ⟨⟨_, List.mem_cons_of_mem _ (List.mem_cons_self _ _), by decide⟩,
    getActions_aggregation_error _
      ⟨_, List.mem_cons_of_mem _ (List.mem_cons_self _ _), by decide⟩⟩

/-! Claim C9: immediate execution of non-toolkit requests. -/

/-- C9: a request that does not require toolkit context is executed
immediately and synchronously by `RequestRunner.execute` — the runner state
(in particular `_active_requests`) is unchanged, so no `DeferredRequest` is
ever created — and the pick-file request built by the factory is such a
request, whose execution replies with the processed list of selected
paths. -/
theorem immediate_request_no_deferred (now : Nat) (st : RunnerState) (req : WSRequest)
    (h : req.requiresToolkit = false) :
    RequestRunner.execute now st req = (st, [RunnerEffect.executeImmediate req]) ∧
    (∀ rid data r, WebsocketsRequest.create rid ⟨"pick_file_or_directory", data⟩ =
        Except.ok r → r.requiresToolkit = false) ∧
    (∀ sep isDir dialog, dialog.accepted = true →
      pickFileExecute sep isDir dialog =
        dialog.selectedFiles.map fun f =>
          (if isDir f then f ++ sep else f).replace "/" sep) := by
  refine ⟨?_, ?_, ?_⟩
  · simp [RequestRunner.execute, h]
  · intro rid data r hr
    have : WebsocketsRequest.create rid ⟨"pick_file_or_directory", data⟩ =
        Except.ok ⟨RequestKind.pickFileOrDirectory false, rid, none, none, none, none⟩ := rfl
    rw [this] at hr
    cases hr
    rfl
  · intro sep isDir dialog hacc
    simp [pickFileExecute, hacc]

/-- Witness for C9 at a concrete pick request and runner state. -/
theorem immediate_request_no_deferred_witness :
    reqPick.requiresToolkit = false ∧
    (RequestRunner.execute 0 ⟨[], 0, []⟩ reqPick =
        (⟨[], 0, []⟩, [RunnerEffect.executeImmediate reqPick]) ∧
      (∀ rid data r, WebsocketsRequest.create rid ⟨"pick_file_or_directory", data⟩ =
          Except.ok r → r.requiresToolkit = false) ∧
      (∀ sep isDir dialog, dialog.accepted = true →
        pickFileExecute sep isDir dialog =
          dialog.selectedFiles.map fun f =>
            (if isDir f then f ++ sep else f).replace "/" sep)) :=
  ⟨by decide, immediate_request_no_deferred 0 ⟨[], 0, []⟩ reqPick (by decide)⟩

/-! Claim C7: cache hit/miss determinism and staleness. -/

/-- C7 (amended): the configurations-changed signal leaves the runner state —
in particular `_cached_configs` — unchanged, so a new toolkit request misses
the cache iff no successful load exists for its scope key at all (not: since
the last bulk invalidation); on a hit, a stale `_last_update_check` adds a
non-blocking refresh probe effect while the cached configurations are still
registered and their commands requested in the same call. -/
theorem cache_hit_miss_and_staleness (st : RunnerState) (now : Nat) (req : WSRequest)
    (h : req.requiresToolkit = true) :
    (RequestRunner.onConfigurationsChanged st).1 = st ∧
    (lookupConfigs st.cachedConfigs req.projectId = none →
      RequestRunner.execute now st req =
        ({ st with activeRequests := st.activeRequests ++ [⟨req, none⟩] },
         [RunnerEffect.requestConfigurations req.projectId])) ∧
    (∀ configs, lookupConfigs st.cachedConfigs req.projectId = some configs →
      RequestRunner.execute now st req =
        ({ st with
            lastUpdateCheck :=
              if now - st.lastUpdateCheck > CONFIG_CHECK_TIMEOUT_SECONDS then now
              else st.lastUpdateCheck
            activeRequests := st.activeRequests ++
              [DeferredRequest.registerConfigurations ⟨req, none⟩ configs] },
         (if now - st.lastUpdateCheck > CONFIG_CHECK_TIMEOUT_SECONDS then
            [RunnerEffect.refreshShotgunGlobalState] else []) ++
         (configs.map fun c =>
           RunnerEffect.requestCommands c req.projectId req.entityType
             req.entityId req.linkedEntityType))) := by
  refine ⟨rfl, ?_, ?_⟩
  · intro hmiss
    simp [RequestRunner.execute, h, hmiss]
  · intro configs hhit
    simp [RequestRunner.execute, h, hhit]

/-- Witness for C7 at a concrete toolkit request, an empty cache (miss) and a
one-entry cache (hit). -/
theorem cache_hit_miss_and_staleness_witness :
    reqGA.requiresToolkit = true ∧
    lookupConfigs (RunnerState.mk [] 0 []).cachedConfigs reqGA.projectId = none ∧
    RequestRunner.execute 0 ⟨[], 0, []⟩ reqGA =
      ({ RunnerState.mk [] 0 [] with
          activeRequests := [] ++ [⟨reqGA, none⟩] },
       [RunnerEffect.requestConfigurations reqGA.projectId]) :=
  ⟨by decide, by decide,
    (cache_hit_miss_and_staleness ⟨[], 0, []⟩ 0 reqGA (by decide)).2.1 (by decide)⟩

/-- C7 counterexample: right after a bulk invalidation, with no load having
happened since, a new request for the invalidated scope still takes the
cache-hit path: the cache is unchanged, the runner asks the cached
configuration for commands and requests no configuration load —
contradicting "miss iff no successful load since the last bulk
invalidation". -/
theorem cache_not_cleared_on_invalidation :
    ((RequestRunner.onConfigurationsChanged ⟨[(some 100, [cfgA])], 5, []⟩).1).cachedConfigs =
      [(some 100, [cfgA])] ∧
    (RequestRunner.execute 5
        (RequestRunner.onConfigurationsChanged ⟨[(some 100, [cfgA])], 5, []⟩).1 reqGA).2 =
      [RunnerEffect.requestCommands cfgA (some 100) (some "Shot") (some 55) none] ∧
    ∀ pid, RunnerEffect.requestConfigurations pid ∉
      (RequestRunner.execute 5
        (RequestRunner.onConfigurationsChanged ⟨[(some 100, [cfgA])], 5, []⟩).1 reqGA).2 := by
  have h2 : (RequestRunner.execute 5
      (RequestRunner.onConfigurationsChanged ⟨[(some 100, [cfgA])], 5, []⟩).1 reqGA).2 =
      [RunnerEffect.requestCommands cfgA (some 100) (some "Shot") (some 55) none] := by
    decide
  refine ⟨rfl, h2, ?_⟩
  intro pid hmem
  rw [h2] at hmem
  simp at hmem

/-! Claim C6: behaviour of in-flight requests across an invalidation. -/

/-- C6 (amended): a global invalidation re-issues configuration loading for
every still-active request's scope and changes no state; but when the fresh
configurations then load, every still-active request for that scope —
including a half-resolved in-flight one — has `register_configurations`
re-applied, which resets its whole tuple list to pending, and commands are
re-requested for it as well (not only for new requests). -/
theorem invalidation_reissues_and_resets (st : RunnerState) (pid : Option Nat)
    (configs : List ExternalConfiguration) (hvalid : ∀ c ∈ configs, c.isValid = true) :
    (RequestRunner.onConfigurationsChanged st).1 = st ∧
    (RequestRunner.onConfigurationsChanged st).2 =
      (st.activeRequests.map fun d =>
        RunnerEffect.requestConfigurations d.request.projectId) ∧
    ∀ d ∈ st.activeRequests, d.request.projectId = pid →
      d.registerConfigurations configs ∈
        (RequestRunner.onConfigurationsLoaded st pid configs).1.activeRequests ∧
      (d.registerConfigurations configs).configurations =
        some (configs.map fun c => ⟨c, none, none⟩) ∧
      ∀ c ∈ configs,
        RunnerEffect.requestCommands c pid d.request.entityType d.request.entityId
            d.request.linkedEntityType ∈
          (RequestRunner.onConfigurationsLoaded st pid configs).2 := by
  have hfilter : (configs.filter fun c => !c.isValid) = [] := by
    rw [List.filter_eq_nil_iff]
    intro c hc
    simp [hvalid c hc]
  refine ⟨rfl, rfl, ?_⟩
  intro d hd hpid
  have hempty : (configs.filter fun c => !c.isValid).isEmpty = true := by
    rw [hfilter]; rfl
  refine ⟨?_, rfl, ?_⟩
  · simp only [RequestRunner.onConfigurationsLoaded, hempty, if_pos]
    exact List.mem_map.2 ⟨d, hd, by simp [hpid]⟩
  · intro c hc
    simp only [RequestRunner.onConfigurationsLoaded, hempty, if_pos]
    refine List.mem_flatten.2 ⟨configs.map fun c2 =>
      RunnerEffect.requestCommands c2 pid d.request.entityType d.request.entityId
        d.request.linkedEntityType, ?_, ?_⟩
    · exact List.mem_map.2 ⟨d, List.mem_filter.2 ⟨hd, by simp [hpid]⟩, rfl⟩
    · exact List.mem_map.2 ⟨c, hc, rfl⟩

/-- Witness for C6 at a concrete half-resolved in-flight request. -/
theorem invalidation_reissues_and_resets_witness :
    (∀ c ∈ [cfgA, cfgB], c.isValid = true) ∧
    (DeferredRequest.mk reqGA (some [⟨cfgA, some [cmdA], none⟩, ⟨cfgB, none, none⟩])) ∈
      (RunnerState.mk [] 0
        [⟨reqGA, some [⟨cfgA, some [cmdA], none⟩, ⟨cfgB, none, none⟩]⟩]).activeRequests ∧
    (DeferredRequest.mk reqGA
        (some [⟨cfgA, some [cmdA], none⟩, ⟨cfgB, none, none⟩])).request.projectId =
      some 100 ∧
    ((DeferredRequest.mk reqGA
        (some [⟨cfgA, some [cmdA], none⟩, ⟨cfgB, none, none⟩])).registerConfigurations
          [cfgA, cfgB] ∈
      (RequestRunner.onConfigurationsLoaded
        (RunnerState.mk [] 0
          [⟨reqGA, some [⟨cfgA, some [cmdA], none⟩, ⟨cfgB, none, none⟩]⟩])
        (some 100) [cfgA, cfgB]).1.activeRequests ∧
    ((DeferredRequest.mk reqGA
        (some [⟨cfgA, some [cmdA], none⟩, ⟨cfgB, none, none⟩])).registerConfigurations
          [cfgA, cfgB]).configurations =
        some ([cfgA, cfgB].map fun c => ⟨c, none, none⟩) ∧
    ∀ c ∈ [cfgA, cfgB],
      RunnerEffect.requestCommands c (some 100)
          (DeferredRequest.mk reqGA
            (some [⟨cfgA, some [cmdA], none⟩, ⟨cfgB, none, none⟩])).request.entityType
          (DeferredRequest.mk reqGA
            (some [⟨cfgA, some [cmdA], none⟩, ⟨cfgB, none, none⟩])).request.entityId
          (DeferredRequest.mk reqGA
            (some [⟨cfgA, some [cmdA], none⟩, ⟨cfgB, none, none⟩])).request.linkedEntityType ∈
        (RequestRunner.onConfigurationsLoaded
          (RunnerState.mk [] 0
            [⟨reqGA, some [⟨cfgA, some [cmdA], none⟩, ⟨cfgB, none, none⟩]⟩])
          (some 100) [cfgA, cfgB]).2) :=
  ⟨by decide, List.mem_singleton.2 rfl, by decide,
    (invalidation_reissues_and_resets
        (RunnerState.mk [] 0
          [⟨reqGA, some [⟨cfgA, some [cmdA], none⟩, ⟨cfgB, none, none⟩]⟩])
        (some 100) [cfgA, cfgB] (by decide)).2.2
      (DeferredRequest.mk reqGA (some [⟨cfgA, some [cmdA], none⟩, ⟨cfgB, none, none⟩]))
      (List.mem_singleton.2 rfl) (by decide)⟩

/-- C6 counterexample: a bulk invalidation while a request for scope 100 is
half-resolved (1 of 2 sources done), followed by the resulting configuration
load, does not retain the resolved tuple: the in-flight request's tuple list
is reset to all-pending and commands are re-requested for it. -/
theorem inflight_request_reset_on_reload :
    (RequestRunner.onConfigurationsLoaded
        ⟨[], 0, [⟨reqGA, some [⟨cfgA, some [cmdA], none⟩, ⟨cfgB, none, none⟩]⟩]⟩
        (some 100) [cfgA, cfgB]).1.activeRequests =
      [⟨reqGA, some [⟨cfgA, none, none⟩, ⟨cfgB, none, none⟩]⟩] ∧
    (RequestRunner.onConfigurationsLoaded
        ⟨[], 0, [⟨reqGA, some [⟨cfgA, some [cmdA], none⟩, ⟨cfgB, none, none⟩]⟩]⟩
        (some 100) [cfgA, cfgB]).2 =
      [RunnerEffect.requestCommands cfgA (some 100) (some "Shot") (some 55) none,
       RunnerEffect.requestCommands cfgB (some 100) (some "Shot") (some 55) none] := by
  exact ⟨by decide, by decide⟩

/-! Claim C10: `register_configurations_failure` marks at most one tuple. -/

/-- A request whose tuple list contains a pending entry cannot be executed. -/
theorem canBeExecuted_false_of_pending (req : WSRequest) (l : List ConfigEntry)
    (e : ConfigEntry) (he : e ∈ l) (hp : e.isPending = true) :
    DeferredRequest.canBeExecuted ⟨req, some l⟩ = false := by
  cases l with
  | nil => cases he
  | cons a as =>
    simp only [DeferredRequest.canBeExecuted]
    rw [Bool.eq_false_iff]
    intro hall
    have := List.all_eq_true.1 hall e he
    simp [hp] at this

/-- When the head of the tuple list matches the invalid-configuration list,
`register_configurations_failure` rewrites exactly the head. -/
theorem registerConfigurationsFailure_cons_matching (req : WSRequest) (e1 : ConfigEntry)
    (tl : List ConfigEntry) (reason : String) (invalid : List ExternalConfiguration)
    (h : e1.configuration ∈ invalid) :
    DeferredRequest.registerConfigurationsFailure ⟨req, some (e1 :: tl)⟩ reason invalid =
      ⟨req, some ({ e1 with commands := none, error := some reason } :: tl)⟩ := by
  simp [DeferredRequest.registerConfigurationsFailure, updateFirst, h]

/-- With at least two registered configurations whose first appears in the
invalid list, any number of `register_configurations_failure` calls leaves
the second tuple pending, so the request can never be executed. -/
theorem twoInvalid_cannot_execute (d : DeferredRequest)
    (c1 c2 : ExternalConfiguration) (rest : List ExternalConfiguration)
    (invalid : List ExternalConfiguration) (reason : String) (h1 : c1 ∈ invalid) :
    ∀ reasons : List String,
      DeferredRequest.canBeExecuted
        (reasons.foldl (fun d2 r2 => d2.registerConfigurationsFailure r2 invalid)
          ((d.registerConfigurations (c1 :: c2 :: rest)).registerConfigurationsFailure
            reason invalid)) = false := by
  have hinv : ∀ (reasons : List String) (e1 : ConfigEntry),
      e1.configuration = c1 →
      ∃ e2 : ConfigEntry,
        reasons.foldl (fun d2 r2 => d2.registerConfigurationsFailure r2 invalid)
          (⟨d.request, some (e1 :: (⟨c2, none, none⟩ : ConfigEntry) ::
            (rest.map fun c => ⟨c, none, none⟩))⟩ : DeferredRequest) =
          ⟨d.request, some (e2 :: (⟨c2, none, none⟩ : ConfigEntry) ::
            (rest.map fun c => ⟨c, none, none⟩))⟩ ∧
        e2.configuration = c1 := by
    intro reasons
    induction reasons with
    | nil => intro e1 he1; exact ⟨e1, rfl, he1⟩
    | cons r rs ih =>
      intro e1 he1
      have hstep := registerConfigurationsFailure_cons_matching d.request e1
        ((⟨c2, none, none⟩ : ConfigEntry) :: (rest.map fun c => ⟨c, none, none⟩))
        r invalid (he1 ▸ h1)
      rw [List.foldl_cons, hstep]
      exact ih { e1 with commands := none, error := some r } he1
  have hbase : (d.registerConfigurations (c1 :: c2 :: rest)).registerConfigurationsFailure
      reason invalid =
      ⟨d.request, some ((⟨c1, none, some reason⟩ : ConfigEntry) ::
        (⟨c2, none, none⟩ : ConfigEntry) :: (rest.map fun c => ⟨c, none, none⟩))⟩ := by
    have := registerConfigurationsFailure_cons_matching d.request ⟨c1, none, none⟩
      ((⟨c2, none, none⟩ : ConfigEntry) :: (rest.map fun c => ⟨c, none, none⟩))
      reason invalid h1
    simpa [DeferredRequest.registerConfigurations] using this
  intro reasons
  rw [hbase]
  obtain ⟨e2, heq, _⟩ := hinv reasons ⟨c1, none, some reason⟩ rfl
  rw [heq]
  exact canBeExecuted_false_of_pending _ _ ⟨c2, none, none⟩
    (List.mem_cons_of_mem _ (List.mem_cons_self _ _)) rfl

/-- C10: a single `register_configurations_failure` call rewrites at most one
tuple — the first (in registration order) whose configuration appears in the
invalid list, all others staying unchanged — and a request registered with
two or more invalid configurations can never reach `can_be_executed`, no
matter how many further failure registrations arrive; at the runner level
such a request survives `_execute_ready_requests` untouched and produces no
execution effect. -/
theorem configurationsFailure_first_match_only
    (d : DeferredRequest) (l : List ConfigEntry) (reason : String)
    (invalid : List ExternalConfiguration)
    (c1 c2 : ExternalConfiguration) (rest : List ExternalConfiguration)
    (hl : d.configurations = some l) (h1 : c1 ∈ invalid) (h2 : c2 ∈ invalid) :
    (((∀ e ∈ l, e.configuration ∉ invalid) ∧
        (d.registerConfigurationsFailure reason invalid).configurations = some l) ∨
      (∃ l1 e l2, l = l1 ++ e :: l2 ∧ (∀ x ∈ l1, x.configuration ∉ invalid) ∧
        e.configuration ∈ invalid ∧
        (d.registerConfigurationsFailure reason invalid).configurations =
          some (l1 ++ { e with commands := none, error := some reason } :: l2))) ∧
    (∀ reasons : List String,
      DeferredRequest.canBeExecuted
        (reasons.foldl (fun d2 r2 => d2.registerConfigurationsFailure r2 invalid)
          ((d.registerConfigurations (c1 :: c2 :: rest)).registerConfigurationsFailure
            reason invalid)) = false) ∧
    (∀ (cache : List (Option Nat × List ExternalConfiguration)) (lc : Nat)
        (cfgs : List ExternalConfiguration),
      d.request.projectId = some 100 →
      cfgs.filter (fun c => !c.isValid) = c1 :: c2 :: rest →
      ∃ r2, (RequestRunner.onConfigurationsLoaded ⟨cache, lc, [d]⟩ (some 100) cfgs).1 =
          ⟨cache, lc,
            [(d.registerConfigurations (c1 :: c2 :: rest)).registerConfigurationsFailure
              r2 (c1 :: c2 :: rest)]⟩ ∧
        (RequestRunner.onConfigurationsLoaded ⟨cache, lc, [d]⟩ (some 100) cfgs).2 = []) := by
  refine ⟨?_, twoInvalid_cannot_execute d c1 c2 rest invalid reason h1, ?_⟩
  · have hspec := updateFirst_spec (fun e => decide (e.configuration ∈ invalid))
      (fun e => { e with commands := none, error := some reason }) l
    rcases hspec with ⟨hnone, heq⟩ | ⟨l1, e, l2, hsplit, hpre, he, heq⟩
    · refine Or.inl ⟨fun e hel => by simpa using hnone e hel, ?_⟩
      simp only [DeferredRequest.registerConfigurationsFailure, hl, Option.map]
      rw [heq]
    · refine Or.inr ⟨l1, e, l2, hsplit, fun x hx => by simpa using hpre x hx,
        by simpa using he, ?_⟩
      simp only [DeferredRequest.registerConfigurationsFailure, hl, Option.map]
      rw [heq]
  · intro cache lc cfgs hpid hfilter
    have hfalse : ∀ R, ((d.registerConfigurations
        (c1 :: c2 :: rest)).registerConfigurationsFailure R
          (c1 :: c2 :: rest)).canBeExecuted = false :=
      fun R => twoInvalid_cannot_execute d c1 c2 rest (c1 :: c2 :: rest) R (by simp) []
    refine ⟨"Cannot resolve configurations with the following ids: " ++
      toString ((c1 :: c2 :: rest).map fun c => c.pipelineConfigurationId), ?_, ?_⟩
    · simp [RequestRunner.onConfigurationsLoaded, hfilter,
        RequestRunner.executeReadyRequests, hpid, hfalse]
    · simp [RequestRunner.onConfigurationsLoaded, hfilter,
        RequestRunner.executeReadyRequests, hpid, hfalse]

/-- Witness for C10: two invalid configurations registered, the first marked
failed, the second pending forever. -/
theorem configurationsFailure_first_match_only_witness :
    (DeferredRequest.mk reqGA (some [⟨cfgBadA, none, none⟩, ⟨cfgBadB, none, none⟩])).configurations =
      some [⟨cfgBadA, none, none⟩, ⟨cfgBadB, none, none⟩] ∧
    cfgBadA ∈ [cfgBadA, cfgBadB] ∧ cfgBadB ∈ [cfgBadA, cfgBadB] ∧
    DeferredRequest.canBeExecuted
      (((DeferredRequest.mk reqGA
          (some [⟨cfgBadA, none, none⟩, ⟨cfgBadB, none, none⟩])).registerConfigurations
            [cfgBadA, cfgBadB]).registerConfigurationsFailure "bad" [cfgBadA, cfgBadB]) =
      false := by
  refine ⟨rfl, by decide, by decide, ?_⟩
  have h := (configurationsFailure_first_match_only
    (DeferredRequest.mk reqGA (some [⟨cfgBadA, none, none⟩, ⟨cfgBadB, none, none⟩]))
    [⟨cfgBadA, none, none⟩, ⟨cfgBadB, none, none⟩] "bad" [cfgBadA, cfgBadB]
    cfgBadA cfgBadB [] rfl (by decide) (by decide)).2.1 []
  simpa using h

/-! Claim C2: error scoping in the encrypted-request pipeline. -/

/-- A sample validation context: localhost origin, matching user 42. -/
def envSample : ConnectionEnv := ⟨true, true, 42, true⟩

/-- A sample inbound message whose decryption fails. -/
def msgBadDecrypt : InboundMessage :=
  ⟨"", Except.error "json", Except.error "InvalidToken", Except.error "json", none⟩

/-- C2 counterexample: in the encrypted-request state, a decryption failure
does not produce an execution-error reply — `_handle_encrypted_request`
raises a `RuntimeError` that propagates out of `process_message` to the
socket layer (where the server's signal wrapper merely logs it). -/
theorem decryption_failure_propagates :
    (processMessage envSample [] ConnectionState.awaitingEncryptedRequest msgBadDecrypt).2 =
      ConnectionOutcome.raised "Could not decrypt payload: InvalidToken" ∧
    ∀ rp, (processMessage envSample [] ConnectionState.awaitingEncryptedRequest
      msgBadDecrypt).2 ≠ ConnectionOutcome.replied rp := by
  have h0 : (processMessage envSample [] ConnectionState.awaitingEncryptedRequest
      msgBadDecrypt).2 = ConnectionOutcome.raised "Could not decrypt payload: InvalidToken" :=
    rfl
  refine ⟨h0, ?_⟩
  intro rp hc
  rw [h0] at hc
  exact ConnectionOutcome.noConfusion hc

/-- C2 (amended): in the encrypted-request state every outcome leaves the
state unchanged and never closes the connection; exceptions raised while the
`"command"` key is read, the request is constructed, or the request runner
schedules it are caught and converted into a `{"retcode": -1, "out": "",
"err": ...}` reply; but a decryption failure, a json-parse failure of the
decrypted payload and a protocol-version mismatch each raise a
`RuntimeError` that propagates out of `process_message` — no reply is sent
for those (the server's signal wrapper catches and logs the exception, so
the connection stays open). -/
theorem encrypted_pipeline_error_scoping (env : ConnectionEnv) (serverId : List Nat)
    (msg : InboundMessage) :
    (processMessage env serverId ConnectionState.awaitingEncryptedRequest msg).1 =
      ConnectionState.awaitingEncryptedRequest ∧
    (∀ rp, (processMessage env serverId ConnectionState.awaitingEncryptedRequest msg).2 ≠
      ConnectionOutcome.repliedAndClosed rp) ∧
    (∀ e, msg.decryptResult = Except.error e →
      (processMessage env serverId ConnectionState.awaitingEncryptedRequest msg).2 =
        ConnectionOutcome.raised ("Could not decrypt payload: " ++ e)) ∧
    (∀ p e, msg.decryptResult = Except.ok p → msg.decryptedParse = Except.error e →
      (processMessage env serverId ConnectionState.awaitingEncryptedRequest msg).2 =
        ConnectionOutcome.raised e) ∧
    (∀ p obj, msg.decryptResult = Except.ok p → msg.decryptedParse = Except.ok obj →
      obj.protocolVersion ≠ some WEBSOCKETS_PROTOCOL_VERSION →
      (processMessage env serverId ConnectionState.awaitingEncryptedRequest msg).2 =
        ConnectionOutcome.raised "Unexpected protocol version!") ∧
    (∀ p obj rid cmd e, msg.decryptResult = Except.ok p →
      msg.decryptedParse = Except.ok obj →
      obj.protocolVersion = some WEBSOCKETS_PROTOCOL_VERSION → obj.requestId = some rid →
      obj.command = some cmd → WebsocketsRequest.create rid cmd = Except.error e →
      (processMessage env serverId ConnectionState.awaitingEncryptedRequest msg).2 =
        ConnectionOutcome.replied (ReplyData.commandErrorReply (-1) "" e rid)) ∧
    (∀ p obj rid cmd req e, msg.decryptResult = Except.ok p →
      msg.decryptedParse = Except.ok obj →
      obj.protocolVersion = some WEBSOCKETS_PROTOCOL_VERSION → obj.requestId = some rid →
      obj.command = some cmd → WebsocketsRequest.create rid cmd = Except.ok req →
      msg.dispatchException = some e →
      (processMessage env serverId ConnectionState.awaitingEncryptedRequest msg).2 =
        ConnectionOutcome.replied (ReplyData.commandErrorReply (-1) "" e rid)) := by
  rcases msg with ⟨raw, jp, dr, dp, dx⟩
  refine ⟨?_, ?_, ?_, ?_, ?_, ?_, ?_⟩
  · show (handleEncryptedRequest _).1 = _
    unfold handleEncryptedRequest
    (repeat' split) <;> rfl
  · intro rp
    show (handleEncryptedRequest _).2 ≠ _
    unfold handleEncryptedRequest
    (repeat' split) <;> simp
  · intro e he
    subst he
    rfl
  · intro p e hdr hdp
    subst hdr; subst hdp
    rfl
  · intro p obj hdr hdp hv
    subst hdr; subst hdp
    simp [processMessage, handleEncryptedRequest, hv]
  · intro p obj rid cmd e hdr hdp hv hrid hcmd hcreate
    subst hdr; subst hdp
    simp [processMessage, handleEncryptedRequest, hv, hrid, hcmd, hcreate]
  · intro p obj rid cmd req e hdr hdp hv hrid hcmd hcreate hdx
    subst hdr; subst hdp; subst hdx
    simp [processMessage, handleEncryptedRequest, hv, hrid, hcmd, hcreate]

/-- Witness for C2 (amended) at the concrete failing-decryption message. -/
theorem encrypted_pipeline_error_scoping_witness :
    msgBadDecrypt.decryptResult = Except.error "InvalidToken" ∧
    (processMessage envSample [] ConnectionState.awaitingEncryptedRequest msgBadDecrypt).2 =
      ConnectionOutcome.raised ("Could not decrypt payload: " ++ "InvalidToken") :=
  ⟨rfl, (encrypted_pipeline_error_scoping envSample [] msgBadDecrypt).2.2.1
    "InvalidToken" rfl⟩

/-! Claim C3: command payloads are gated on the handshake states. -/

/-- C3: in the two handshake states no command is ever dispatched; the state
advances only on the exact expected input (the literal probe in
`AWAITING_HANDSHAKE`; a validated `get_ws_server_id` command in
`AWAITING_SERVER_ID_REQUEST`) and then to the next state; and any message
that does not advance the state produces a fatal outcome — a raised
protocol error or a closed connection — never a silent ignore or a partial
state change. -/
theorem handshake_state_gating (env : ConnectionEnv) (serverId : List Nat)
    (state : ConnectionState) (msg : InboundMessage)
    (h : state ≠ ConnectionState.awaitingEncryptedRequest) :
    (∀ req, (processMessage env serverId state msg).2 ≠
      ConnectionOutcome.dispatched req) ∧
    ((processMessage env serverId state msg).1 ≠ state →
      (state = ConnectionState.awaitingHandshake ∧
        msg.rawText = "get_protocol_version" ∧
        (processMessage env serverId state msg).1 =
          ConnectionState.awaitingServerIdRequest) ∨
      (state = ConnectionState.awaitingServerIdRequest ∧
        (processMessage env serverId state msg).1 =
          ConnectionState.awaitingEncryptedRequest ∧
        ∃ obj, msg.jsonParse = Except.ok obj ∧
          obj.command.map WireCommand.name = some "get_ws_server_id")) ∧
    ((processMessage env serverId state msg).1 = state →
      ((processMessage env serverId state msg).2).isFatal = true) := by
  rcases msg with ⟨raw, jp, dr, dp, dx⟩
  cases state with
  | awaitingEncryptedRequest => exact absurd rfl h
  | awaitingHandshake =>
    by_cases hr : raw = "get_protocol_version"
    · subst hr
      refine ⟨?_, ?_, ?_⟩
      · intro req
        simp [processMessage, handleProtocolHandshakeRequest]
      · intro _
        exact Or.inl ⟨rfl, rfl, by simp [processMessage, handleProtocolHandshakeRequest]⟩
      · intro hst
        simp [processMessage, handleProtocolHandshakeRequest] at hst
    · refine ⟨?_, ?_, ?_⟩
      · intro req
        simp [processMessage, handleProtocolHandshakeRequest, hr]
      · intro hne
        simp [processMessage, handleProtocolHandshakeRequest, hr] at hne
      · intro _
        simp [processMessage, handleProtocolHandshakeRequest, hr, ConnectionOutcome.isFatal]
  | awaitingServerIdRequest =>
    cases jp with
    | error e =>
      refine ⟨?_, ?_, ?_⟩
      · intro req
        simp [processMessage, handleServerIdRequest]
      · intro hne
        simp [processMessage, handleServerIdRequest] at hne
      · intro _
        simp [processMessage, handleServerIdRequest, ConnectionOutcome.isFatal]
    | ok obj =>
      rcases obj with ⟨rid, pv, cmd, uid⟩
      cases rid with
      | none =>
        refine ⟨?_, ?_, ?_⟩
        · intro req
          simp [processMessage, handleServerIdRequest]
        · intro hne
          simp [processMessage, handleServerIdRequest] at hne
        · intro _
          simp [processMessage, handleServerIdRequest, ConnectionOutcome.isFatal]
      | some ridv =>
        cases uid with
        | none =>
          refine ⟨?_, ?_, ?_⟩
          · intro req
            simp [processMessage, handleServerIdRequest]
          · intro hne
            simp [processMessage, handleServerIdRequest] at hne
          · intro _
            simp [processMessage, handleServerIdRequest, ConnectionOutcome.isFatal]
        | some uidv =>
          by_cases hsite : (!env.originIsLocalhost && !env.originIsShotgunSite) = true
          · refine ⟨?_, ?_, ?_⟩
            · intro req
              simp [processMessage, handleServerIdRequest, hsite]
            · intro hne
              simp [processMessage, handleServerIdRequest, hsite] at hne
            · intro _
              simp [processMessage, handleServerIdRequest, hsite, ConnectionOutcome.isFatal]
          · by_cases huser : uidv ≠ env.currentUserId
            · refine ⟨?_, ?_, ?_⟩
              · intro req
                simp [processMessage, handleServerIdRequest, hsite, huser]
              · intro hne
                simp [processMessage, handleServerIdRequest, hsite, huser] at hne
              · intro _
                simp [processMessage, handleServerIdRequest, hsite, huser,
                  ConnectionOutcome.isFatal]
            · by_cases hcmd : cmd.map WireCommand.name = some "get_ws_server_id"
              · refine ⟨?_, ?_, ?_⟩
                · intro req
                  simp [processMessage, handleServerIdRequest, hsite, huser, hcmd]
                · intro _
                  refine Or.inr ⟨rfl, ?_, ⟨⟨some ridv, pv, cmd, some uidv⟩, rfl, hcmd⟩⟩
                  simp [processMessage, handleServerIdRequest, hsite, huser, hcmd]
                · intro hst
                  simp [processMessage, handleServerIdRequest, hsite, huser, hcmd] at hst
              · refine ⟨?_, ?_, ?_⟩
                · intro req
                  simp [processMessage, handleServerIdRequest, hsite, huser, hcmd]
                · intro hne
                  simp [processMessage, handleServerIdRequest, hsite, huser, hcmd] at hne
                · intro _
                  simp [processMessage, handleServerIdRequest, hsite, huser, hcmd,
                    ConnectionOutcome.isFatal]

/-- A sample wire message carrying a well-formed `get_ws_server_id` command
from user 42. -/
def msgServerId : InboundMessage :=
  ⟨"", Except.ok ⟨some 1, none, some ⟨"get_ws_server_id", CommandData.empty⟩, some 42⟩,
    Except.error "enc", Except.error "enc", none⟩

/-- Witness for C3: a command-phase message arriving in the handshake state
is never dispatched and is fatal. -/
theorem handshake_state_gating_witness :
    (ConnectionState.awaitingHandshake ≠ ConnectionState.awaitingEncryptedRequest) ∧
    ∀ req, (processMessage envSample [] ConnectionState.awaitingHandshake msgServerId).2 ≠
      ConnectionOutcome.dispatched req :=
  ⟨by decide,
    (handshake_state_gating envSample [] ConnectionState.awaitingHandshake msgServerId
      (by decide)).1⟩

/-! Claim C1: scatter/gather aggregation fires exactly once. -/

/-- A configuration was resolved (successfully or not) by one of the
completion signals in the list. -/
def eventsTouch (evs : List CommandEvent) (c : ExternalConfiguration) : Prop :=
  ∃ ev ∈ evs, ev.config = c

/-- Folding a sequence of completion signals into a deferred request. -/
def DeferredRequest.applyEvents (d : DeferredRequest) (evs : List CommandEvent) :
    DeferredRequest :=
  evs.foldl DeferredRequest.applyEvent d

/-- Invariant tying a tuple list to its registered configurations: position
by position, the entry belongs to the configuration and is resolved exactly
when `P` holds of it. -/
def entryInv (P : ExternalConfiguration → Prop) (c : ExternalConfiguration)
    (e : ConfigEntry) : Prop :=
  e.configuration = c ∧ (e.isPending = false ↔ P c)

/-- The invariant respects pointwise equivalent predicates. -/
theorem entryInv_mono {P Q : ExternalConfiguration → Prop} (h : ∀ c, P c ↔ Q c)
    {cs : List ExternalConfiguration} {l : List ConfigEntry}
    (hf : List.Forall₂ (entryInv P) cs l) : List.Forall₂ (entryInv Q) cs l :=
  hf.imp fun {a b} hce => ⟨hce.1, hce.2.trans (h a)⟩

/-- Weakening the invariant with a disjunct that never fires. -/
theorem entryInv_or_of_ne {P : ExternalConfiguration → Prop}
    (c0 : ExternalConfiguration) :
    ∀ {cs : List ExternalConfiguration} {l : List ConfigEntry},
      (∀ c ∈ cs, c ≠ c0) → List.Forall₂ (entryInv P) cs l →
      List.Forall₂ (entryInv fun c => P c ∨ c = c0) cs l := by
  intro cs l hne hf
  induction hf with
  | nil => exact List.Forall₂.nil
  | @cons c e cs2 l2 hce htail ih =>
    refine List.Forall₂.cons ⟨hce.1, ?_⟩
      (ih fun c2 hc2 => hne c2 (List.mem_cons_of_mem _ hc2))
    rw [hce.2]
    exact ⟨Or.inl, fun hor => hor.resolve_right (hne c (List.mem_cons_self _ _))⟩

/-- Effect of rewriting the first entry matching `c0` with a resolving,
configuration-preserving rewrite, under the invariant. -/
theorem entryInv_updateFirst (f : ConfigEntry → ConfigEntry)
    (hcfg : ∀ e, (f e).configuration = e.configuration)
    (hres : ∀ e, (f e).isPending = false) (c0 : ExternalConfiguration) :
    ∀ {cs : List ExternalConfiguration} {l : List ConfigEntry}
      {P : ExternalConfiguration → Prop}, cs.Nodup →
      List.Forall₂ (entryInv P) cs l →
      List.Forall₂ (entryInv fun c => P c ∨ c = c0) cs
        (updateFirst (fun e => decide (e.configuration = c0)) f l) := by
  intro cs l P hnd hf
  induction hf with
  | nil => exact List.Forall₂.nil
  | @cons c e cs2 l2 hce htail ih =>
    by_cases hc : e.configuration = c0
    · have hred : updateFirst (fun e => decide (e.configuration = c0)) f (e :: l2) =
          f e :: l2 := by
        simp [updateFirst, hc]
      rw [hred]
      have hcc0 : c = c0 := hce.1 ▸ hc
      refine List.Forall₂.cons ⟨(hcfg e).trans hce.1, ?_⟩ ?_
      · rw [hres e]
        exact ⟨fun _ => Or.inr hcc0, fun _ => rfl⟩
      · refine entryInv_or_of_ne c0 ?_ htail
        intro c2 hc2 hceq
        have hcc : c2 = c := hceq.trans hcc0.symm
        exact (List.nodup_cons.1 hnd).1 (hcc ▸ hc2)
    · have hred : updateFirst (fun e => decide (e.configuration = c0)) f (e :: l2) =
          e :: updateFirst (fun e => decide (e.configuration = c0)) f l2 := by
        simp [updateFirst, hc]
      rw [hred]
      have hcne : c ≠ c0 := fun hq => hc (hce.1.trans hq)
      refine List.Forall₂.cons ⟨hce.1, ?_⟩ (ih (List.nodup_cons.1 hnd).2)
      rw [hce.2]
      exact ⟨Or.inl, fun hor => hor.resolve_right hcne⟩

/-- Every completion signal acts on a registered request as a resolving,
configuration-preserving rewrite of the first matching tuple. -/
theorem applyEvent_some (req : WSRequest) (l : List ConfigEntry) (ev : CommandEvent) :
    ∃ f, (∀ e, (f e).configuration = e.configuration) ∧
      (∀ e, (f e).isPending = false) ∧
      DeferredRequest.applyEvent ⟨req, some l⟩ ev =
        ⟨req, some (updateFirst (fun e => decide (e.configuration = ev.config)) f l)⟩ := by
  cases ev with
  | loaded c cmds =>
    exact ⟨fun e => { e with commands := some cmds, error := none },
      fun e => rfl, fun e => rfl, rfl⟩
  | loadFailed c r =>
    exact ⟨fun e => { e with commands := none, error := some r },
      fun e => rfl, fun e => rfl, rfl⟩

/-- Completion signals never change the wrapped request. -/
theorem applyEvent_request (d : DeferredRequest) (ev : CommandEvent) :
    (d.applyEvent ev).request = d.request := by
  cases ev <;> rfl

/-- The configuration/resolution invariant carried through a whole sequence
of completion signals. -/
theorem applyEvents_inv (req : WSRequest) :
    ∀ (evs : List CommandEvent) {cs : List ExternalConfiguration}
      {l : List ConfigEntry} {P : ExternalConfiguration → Prop},
      cs.Nodup → List.Forall₂ (entryInv P) cs l →
      ∃ l2, DeferredRequest.applyEvents ⟨req, some l⟩ evs = ⟨req, some l2⟩ ∧
        List.Forall₂ (entryInv fun c => P c ∨ eventsTouch evs c) cs l2 := by
  intro evs
  induction evs with
  | nil =>
    intro cs l P hnd hf
    refine ⟨l, rfl, entryInv_mono (fun c => ?_) hf⟩
    simp [eventsTouch]
  | cons ev evs ih =>
    intro cs l P hnd hf
    obtain ⟨f, hcfg, hres, heq⟩ := applyEvent_some req l ev
    have h1 := entryInv_updateFirst f hcfg hres ev.config hnd hf
    obtain ⟨l2, heq2, hf2⟩ := ih hnd h1
    refine ⟨l2, ?_, ?_⟩
    · show DeferredRequest.applyEvents (DeferredRequest.applyEvent ⟨req, some l⟩ ev) evs =
        ⟨req, some l2⟩
      rw [heq]
      exact heq2
    · refine entryInv_mono (fun c => ?_) hf2
      simp only [eventsTouch, List.mem_cons]
      constructor
      · intro hor
        rcases hor with hp | ht
        · rcases hp with hp | hc0
          · exact Or.inl hp
          · exact Or.inr ⟨ev, Or.inl rfl, hc0.symm⟩
        · obtain ⟨ev2, hmem, hcfg2⟩ := ht
          exact Or.inr ⟨ev2, Or.inr hmem, hcfg2⟩
      · intro hor
        rcases hor with hp | ⟨ev2, hmem, hcfg2⟩
        · exact Or.inl (Or.inl hp)
        · rcases hmem with hh | hm
          · exact Or.inl (Or.inr (hh ▸ hcfg2).symm)
          · exact Or.inr ⟨ev2, hm, hcfg2⟩

/-- Under the invariant, the all-resolved test means `P` everywhere. -/
theorem all_resolved_iff {P : ExternalConfiguration → Prop} :
    ∀ {cs : List ExternalConfiguration} {l : List ConfigEntry},
      List.Forall₂ (entryInv P) cs l →
      ((l.all fun x => !x.isPending) = true ↔ ∀ c ∈ cs, P c) := by
  intro cs l hf
  induction hf with
  | nil => simp
  | @cons c e cs2 l2 hce htail ih =>
    rw [List.all_cons, Bool.and_eq_true, Bool.not_eq_true', hce.2, ih]
    constructor
    · rintro ⟨hc, hall⟩ c2 hc2
      rcases List.mem_cons.1 hc2 with rfl | h2
      · exact hc
      · exact hall c2 h2
    · intro hall
      exact ⟨hall c (List.mem_cons_self _ _),
        fun c2 h2 => hall c2 (List.mem_cons_of_mem _ h2)⟩

/-- Under the invariant, `can_be_executed` holds iff the registered list is
non-empty and every configuration satisfies `P`. -/
theorem canBeExecuted_iff (req : WSRequest) {P : ExternalConfiguration → Prop}
    {cs : List ExternalConfiguration} {l : List ConfigEntry}
    (hf : List.Forall₂ (entryInv P) cs l) :
    (DeferredRequest.canBeExecuted ⟨req, some l⟩ = true ↔
      cs ≠ [] ∧ ∀ c ∈ cs, P c) := by
  cases hf with
  | nil =>
    refine ⟨fun hc => absurd hc ?_, fun hcs => absurd rfl hcs.1⟩
    show ¬(false = true)
    simp
  | @cons c e cs2 l2 hce htail =>
    have hall := all_resolved_iff (List.Forall₂.cons hce htail)
    show ((e :: l2).all fun x => !x.isPending) = true ↔ _
    rw [hall]
    simp

/-- An executable request has every tuple resolved. -/
theorem canBeExecuted_resolved (req : WSRequest) (l : List ConfigEntry)
    (h : DeferredRequest.canBeExecuted ⟨req, some l⟩ = true) :
    ∀ e ∈ l, e.isPending = false := by
  intro e he
  cases l with
  | nil => cases he
  | cons a as =>
    have h2 : ((a :: as).all fun x => !x.isPending) = true := h
    have := List.all_eq_true.1 h2 e he
    simpa using this

/-- Fresh registration satisfies the invariant with the empty predicate. -/
theorem freshEntries_inv (cs : List ExternalConfiguration) :
    List.Forall₂ (entryInv fun _ => False) cs
      (cs.map fun c => ⟨c, none, none⟩) := by
  induction cs with
  | nil => exact List.Forall₂.nil
  | cons c cs ih =>
    exact List.Forall₂.cons ⟨rfl, by simp [ConfigEntry.isPending]⟩ ih

/-- A runner with no active requests absorbs completion signals without any
effect. -/
theorem runEvents_inactive (pid : Option Nat) (etype : Option String) :
    ∀ (evs : List CommandEvent) (st : RunnerState), st.activeRequests = [] →
      RequestRunner.runEvents pid etype st evs = (st, []) := by
  intro evs
  induction evs with
  | nil => intro st _; rfl
  | cons ev evs ih =>
    rintro ⟨cc, lc, ar⟩ h
    have har : ar = [] := h
    subst har
    have hstep : RequestRunner.onCommandEvent ⟨cc, lc, []⟩ pid etype ev =
        (⟨cc, lc, []⟩, []) := by
      cases ev <;> rfl
    simp only [RequestRunner.runEvents, hstep]
    rw [ih ⟨cc, lc, []⟩ rfl]
    simp

/-- Running `_execute_ready_requests` on a single active request: fire and retire it
when it is complete, keep it untouched otherwise. -/
theorem executeReadyRequests_single
    (cc : List (Option Nat × List ExternalConfiguration)) (lc : Nat)
    (d : DeferredRequest) :
    RequestRunner.executeReadyRequests ⟨cc, lc, [d]⟩ =
      (if d.canBeExecuted then
        ((⟨cc, lc, []⟩ : RunnerState),
         [RunnerEffect.executeWithContext d.request (d.configurations.getD [])])
      else ((⟨cc, lc, [d]⟩ : RunnerState), [])) := by
  by_cases hexec : d.canBeExecuted = true
  · have hex : d.execute = Except.ok (RunnerEffect.executeWithContext d.request
        (d.configurations.getD [])) := by
      simp [DeferredRequest.execute, hexec]
    simp [RequestRunner.executeReadyRequests, hexec, hex]
  · simp only [Bool.not_eq_true] at hexec
    simp [RequestRunner.executeReadyRequests, hexec]

/-- One completion signal delivered to a runner with a single matching active
request. -/
theorem onCommandEvent_single
    (cc : List (Option Nat × List ExternalConfiguration)) (lc : Nat)
    (d : DeferredRequest) (ev : CommandEvent) :
    RequestRunner.onCommandEvent ⟨cc, lc, [d]⟩ d.request.projectId
        d.request.entityType ev =
      (if (d.applyEvent ev).canBeExecuted then
        ((⟨cc, lc, []⟩ : RunnerState),
         [RunnerEffect.executeWithContext (d.applyEvent ev).request
           ((d.applyEvent ev).configurations.getD [])])
      else ((⟨cc, lc, [d.applyEvent ev]⟩ : RunnerState), [])) := by
  have hstep : RequestRunner.onCommandEvent ⟨cc, lc, [d]⟩ d.request.projectId
      d.request.entityType ev =
      RequestRunner.executeReadyRequests ⟨cc, lc, [d.applyEvent ev]⟩ := by
    cases ev with
    | loaded c cmds =>
      simp [RequestRunner.onCommandEvent, RequestRunner.onCommandsLoaded,
        DeferredRequest.applyEvent]
    | loadFailed c r =>
      simp [RequestRunner.onCommandEvent, RequestRunner.onCommandsLoadFailed,
        DeferredRequest.applyEvent]
  rw [hstep, executeReadyRequests_single]

/-- Trace behaviour of a runner holding exactly one not-yet-complete deferred
request: either no signal sequence completes it — it stays active, equal to
the fold of the signals, with no effect emitted — or some prefix completes
it, and the collected effect list is exactly one context execution. -/
theorem runEvents_single (req : WSRequest) :
    ∀ (evs : List CommandEvent) (cc : List (Option Nat × List ExternalConfiguration))
      (lc : Nat) (d : DeferredRequest), d.request = req → d.canBeExecuted = false →
      (((RequestRunner.runEvents req.projectId req.entityType
            ⟨cc, lc, [d]⟩ evs).1.activeRequests = [d.applyEvents evs] ∧
          (d.applyEvents evs).canBeExecuted = false ∧
          (RequestRunner.runEvents req.projectId req.entityType
            ⟨cc, lc, [d]⟩ evs).2 = []) ∨
        ((RequestRunner.runEvents req.projectId req.entityType
            ⟨cc, lc, [d]⟩ evs).1.activeRequests = [] ∧
          ∃ pfx sfx, evs = pfx ++ sfx ∧
            (d.applyEvents pfx).canBeExecuted = true ∧
            (RequestRunner.runEvents req.projectId req.entityType
              ⟨cc, lc, [d]⟩ evs).2 =
              [RunnerEffect.executeWithContext req
                ((d.applyEvents pfx).configurations.getD [])])) := by
  intro evs
  induction evs with
  | nil =>
    intro cc lc d hreq hfalse
    exact Or.inl ⟨rfl, hfalse, rfl⟩
  | cons ev evs ih =>
    intro cc lc d hreq hfalse
    subst hreq
    have hstep := onCommandEvent_single cc lc d ev
    by_cases hexec : (d.applyEvent ev).canBeExecuted = true
    · rw [if_pos hexec] at hstep
      refine Or.inr ?_
      have hrun : RequestRunner.runEvents d.request.projectId d.request.entityType
          ⟨cc, lc, [d]⟩ (ev :: evs) =
          ((⟨cc, lc, []⟩ : RunnerState),
           [RunnerEffect.executeWithContext (d.applyEvent ev).request
             ((d.applyEvent ev).configurations.getD [])] ++ []) := by
        simp only [RequestRunner.runEvents, hstep]
        rw [runEvents_inactive _ _ evs ⟨cc, lc, []⟩ rfl]
      rw [hrun]
      refine ⟨rfl, [ev], evs, rfl, hexec, ?_⟩
      rw [applyEvent_request]
      simp [DeferredRequest.applyEvents]
    · simp only [Bool.not_eq_true] at hexec
      rw [if_neg (by rw [hexec]; exact Bool.false_ne_true)] at hstep
      have hrun : RequestRunner.runEvents d.request.projectId d.request.entityType
          ⟨cc, lc, [d]⟩ (ev :: evs) =
          ((RequestRunner.runEvents d.request.projectId d.request.entityType
              ⟨cc, lc, [d.applyEvent ev]⟩ evs).1,
           [] ++ (RequestRunner.runEvents d.request.projectId d.request.entityType
              ⟨cc, lc, [d.applyEvent ev]⟩ evs).2) := by
        simp only [RequestRunner.runEvents, hstep]
      have ih2 := ih cc lc (d.applyEvent ev) (applyEvent_request d ev) hexec
      rcases ih2 with ⟨hact, hcbe, heff⟩ | ⟨hact, pfx, sfx, hsplit, hcbe, heff⟩
      · refine Or.inl ⟨?_, ?_, ?_⟩
        · rw [hrun]
          exact hact
        · exact hcbe
        · rw [hrun]
          simpa using heff
      · refine Or.inr ⟨?_, ev :: pfx, sfx, by simp [hsplit], hcbe, ?_⟩
        · rw [hrun]
          exact hact
        · rw [hrun]
          simpa using heff

/-- C1 counterexample: with zero registered configuration sources every tuple
is (vacuously) resolved, yet `can_be_executed` returns `False` — the Python
truthiness test on `_configurations` sends the empty list into the
config-not-yet-loaded branch. -/
theorem empty_registration_cannot_execute :
    (∀ e ∈ (DeferredRequest.registerConfigurations
        ⟨reqGA, none⟩ []).configurations.getD [], e.isPending = false) ∧
    (DeferredRequest.registerConfigurations ⟨reqGA, none⟩ []).canBeExecuted = false := by
  have hnil : (DeferredRequest.registerConfigurations
      ⟨reqGA, none⟩ []).configurations.getD [] = [] := rfl
  refine ⟨?_, rfl⟩
  intro e he
  rw [hnil] at he
  cases he

/-- C1 (amended): for one DeferredRequest registered with `N ≥ 1` distinct
configuration sources, `can_be_executed` holds after a sequence of completion
signals iff every registered source has resolved (successfully or with a
failure); delivered through the runner in any order, the signals produce at
most one context execution, any such execution carries a fully resolved
N-tuple state, and once every source has resolved the execution has fired
exactly once.  (For `N = 0` the iff fails — see the counterexample.) -/
theorem deferred_aggregation_exactly_once
    (cache : List (Option Nat × List ExternalConfiguration)) (lc : Nat)
    (req : WSRequest) (cs : List ExternalConfiguration) (evs : List CommandEvent)
    (hne : cs ≠ []) (hnd : cs.Nodup) :
    ((DeferredRequest.applyEvents
        (DeferredRequest.registerConfigurations ⟨req, none⟩ cs) evs).canBeExecuted =
        true ↔ ∀ c ∈ cs, eventsTouch evs c) ∧
    ((RequestRunner.runEvents req.projectId req.entityType
        ⟨cache, lc, [DeferredRequest.registerConfigurations ⟨req, none⟩ cs]⟩ evs).2 =
        [] ∨
      ∃ ctx, (RequestRunner.runEvents req.projectId req.entityType
          ⟨cache, lc, [DeferredRequest.registerConfigurations ⟨req, none⟩ cs]⟩ evs).2 =
        [RunnerEffect.executeWithContext req ctx] ∧ ctx.length = cs.length ∧
        ∀ e ∈ ctx, e.isPending = false) ∧
    ((∀ c ∈ cs, eventsTouch evs c) →
      ∃ ctx, (RequestRunner.runEvents req.projectId req.entityType
          ⟨cache, lc, [DeferredRequest.registerConfigurations ⟨req, none⟩ cs]⟩ evs).2 =
        [RunnerEffect.executeWithContext req ctx] ∧ ctx.length = cs.length ∧
        ∀ e ∈ ctx, e.isPending = false) := by
  have hfresh := freshEntries_inv cs
  -- part 1: the completion iff, via the positional invariant
  have hpart1 : ∀ evs2 : List CommandEvent,
      ((DeferredRequest.applyEvents
        (DeferredRequest.registerConfigurations ⟨req, none⟩ cs) evs2).canBeExecuted =
        true ↔ ∀ c ∈ cs, eventsTouch evs2 c) := by
    intro evs2
    obtain ⟨l2, heq, hinv⟩ := applyEvents_inv req evs2 hnd hfresh
    have heq2 : DeferredRequest.applyEvents
        (DeferredRequest.registerConfigurations ⟨req, none⟩ cs) evs2 = ⟨req, some l2⟩ :=
      heq
    rw [heq2, canBeExecuted_iff req hinv]
    constructor
    · rintro ⟨_, hall⟩ c hc
      exact (hall c hc).resolve_left id
    · intro hall
      exact ⟨hne, fun c hc => Or.inr (hall c hc)⟩
  -- the freshly registered request is not executable
  have hinit : (DeferredRequest.registerConfigurations
      ⟨req, none⟩ cs).canBeExecuted = false := by
    rw [Bool.eq_false_iff]
    intro htrue
    obtain ⟨_, hall⟩ := (canBeExecuted_iff req hfresh).1 htrue
    obtain ⟨c0, hc0⟩ := List.exists_mem_of_ne_nil cs hne
    exact hall c0 hc0
  -- a complete prefix yields a fully resolved context of the right length
  have hctx : ∀ pfx : List CommandEvent,
      (DeferredRequest.applyEvents
        (DeferredRequest.registerConfigurations ⟨req, none⟩ cs) pfx).canBeExecuted =
        true →
      ((DeferredRequest.applyEvents
          (DeferredRequest.registerConfigurations ⟨req, none⟩ cs) pfx).configurations.getD
            []).length = cs.length ∧
      ∀ e ∈ (DeferredRequest.applyEvents
          (DeferredRequest.registerConfigurations ⟨req, none⟩ cs) pfx).configurations.getD
            [], e.isPending = false := by
    intro pfx hcbe
    obtain ⟨l2, heq, hinv⟩ := applyEvents_inv req pfx hnd hfresh
    have heq2 : DeferredRequest.applyEvents
        (DeferredRequest.registerConfigurations ⟨req, none⟩ cs) pfx = ⟨req, some l2⟩ :=
      heq
    rw [heq2] at hcbe ⊢
    exact ⟨hinv.length_eq.symm, canBeExecuted_resolved req l2 hcbe⟩
  have htrace := runEvents_single req evs cache lc
    (DeferredRequest.registerConfigurations ⟨req, none⟩ cs) rfl hinit
  refine ⟨hpart1 evs, ?_, ?_⟩
  · rcases htrace with ⟨_, _, heff⟩ | ⟨_, pfx, sfx, _, hcbe, heff⟩
    · exact Or.inl heff
    · obtain ⟨hlen, hres⟩ := hctx pfx hcbe
      exact Or.inr ⟨_, heff, hlen, hres⟩
  · intro hcov
    rcases htrace with ⟨_, hcbe, _⟩ | ⟨_, pfx, sfx, _, hcbe, heff⟩
    · exact absurd ((hpart1 evs).2 hcov) (by rw [hcbe]; exact Bool.false_ne_true)
    · obtain ⟨hlen, hres⟩ := hctx pfx hcbe
      exact ⟨_, heff, hlen, hres⟩

/-- Witness for C1 at two concrete sources, one resolving with commands and
one with a failure. -/
theorem deferred_aggregation_exactly_once_witness :
    ([cfgA, cfgB] ≠ ([] : List ExternalConfiguration)) ∧
    ([cfgA, cfgB] : List ExternalConfiguration).Nodup ∧
    ∃ ctx, (RequestRunner.runEvents reqGA.projectId reqGA.entityType
        ⟨[], 0, [DeferredRequest.registerConfigurations ⟨reqGA, none⟩ [cfgA, cfgB]]⟩
        [CommandEvent.loaded cfgA [cmdA], CommandEvent.loadFailed cfgB "boom"]).2 =
      [RunnerEffect.executeWithContext reqGA ctx] ∧
      ctx.length = ([cfgA, cfgB] : List ExternalConfiguration).length ∧
      ∀ e ∈ ctx, e.isPending = false := by
  have hcov : ∀ c ∈ [cfgA, cfgB], eventsTouch
      [CommandEvent.loaded cfgA [cmdA], CommandEvent.loadFailed cfgB "boom"] c := by
    intro c hc
    rcases List.mem_cons.1 hc with rfl | hc2
    · exact ⟨CommandEvent.loaded cfgA [cmdA], List.mem_cons_self _ _, rfl⟩
    · rcases List.mem_cons.1 hc2 with rfl | hc3
      · exact ⟨CommandEvent.loadFailed cfgB "boom", by simp, rfl⟩
      · cases hc3
  exact ⟨by decide, by decide,
    (deferred_aggregation_exactly_once [] 0 reqGA [cfgA, cfgB]
      [CommandEvent.loaded cfgA [cmdA], CommandEvent.loadFailed cfgB "boom"]
      (by decide) (by decide)).2.2 hcov⟩

end TkDesktop2
